import Mathlib

/-!
# RealGas: a formal model of the gas-thermodynamics kernels

Shallow embedding of the RealGas package (critical-constant validation,
cubic equation-of-state kernel, virial equation-of-state kernel and its
mixture layer), together with theorems settling the specification claims.

The repository ships the implementation modules `gasthermo.eos.cubic`,
`gasthermo.eos.virial` and `gasthermo.critical_constants` outside of the
checked-in sources (only the package doctests and the test suite are
present), so the kernel definitions below are modelled from the
specification, as indicated in each doc comment.  Real-valued
floating-point arithmetic is embedded as exact real arithmetic over `ℝ`;
the rational validation layer is embedded over `ℚ`.
-/

namespace RealGas

/-! ## Critical-constant validation layer (rational arithmetic) -/

/-- Modelled from the spec: the six critical-constant fields of
`gasthermo.critical_constants.CriticalConstants` (not under `src/`),
spec section 3: `{T_c, P_c, V_c, Z_c, ω (acentric factor), MW}`, all SI. -/
structure CriticalConstants where
  T_c : ℚ
  P_c : ℚ
  V_c : ℚ
  Z_c : ℚ
  w : ℚ
  MW : ℚ
  deriving DecidableEq

/-- Modelled from the spec: a user-supplied override set, any subset of the
six fields (spec sections 4.1, 6, 9: an explicit configuration struct
enumerating the six optional override fields). -/
structure CriticalOverrides where
  T_c : Option ℚ
  P_c : Option ℚ
  V_c : Option ℚ
  Z_c : Option ℚ
  w : Option ℚ
  MW : Option ℚ

/-- Modelled from the spec: `chem_util.math.percent_difference` (external
helper, not under `src/`): symmetric percent difference of two values. -/
def percent_difference (x y : ℚ) : ℚ := |x - y| / ((x + y) / 2) * 100

/-- Modelled from the spec: the fixed percent-difference tolerance for
accepting user-supplied critical constants (spec section 4.1: default
around 5 to 10 percent; 10 is consistent with every doctest in
`src/gasthermo/__init__.py`). -/
def TOL : ℚ := 10

/-- Modelled from the spec: validation of one optional override field
against its reference value; the error message names the offending field,
matching the doctests (`AssertionError: Percent difference too high for T_c`). -/
def checkField (fieldName : String) (ref : ℚ) (ov : Option ℚ) : Except String ℚ :=
  match ov with
  | none => Except.ok ref
  | some v =>
    if TOL < percent_difference ref v then
      Except.error ("Percent difference too high for " ++ fieldName)
    else Except.ok v

/-- Modelled from the spec: construction of a validated
`CriticalConstants` record from reference-database values and a set of
user overrides (spec section 4.1).  Fields are checked in the order
`T_c, P_c, V_c, Z_c, w, MW`; the first field whose percent difference
exceeds the tolerance aborts construction with an error naming it, and a
field that passes validation keeps the override value, not the reference. -/
def mkCriticalConstants (ref : CriticalConstants) (ov : CriticalOverrides) :
    Except String CriticalConstants :=
  match checkField "T_c" ref.T_c ov.T_c with
  | Except.error e => Except.error e
  | Except.ok tc =>
    match checkField "P_c" ref.P_c ov.P_c with
    | Except.error e => Except.error e
    | Except.ok pc =>
      match checkField "V_c" ref.V_c ov.V_c with
      | Except.error e => Except.error e
      | Except.ok vc =>
        match checkField "Z_c" ref.Z_c ov.Z_c with
        | Except.error e => Except.error e
        | Except.ok zc =>
          match checkField "w" ref.w ov.w with
          | Except.error e => Except.error e
          | Except.ok wv =>
            match checkField "MW" ref.MW ov.MW with
            | Except.error e => Except.error e
            | Except.ok mw => Except.ok ⟨tc, pc, vc, zc, wv, mw⟩

/-- Boolean check that a single optional override is within tolerance of
its reference value (no override counts as within tolerance). -/
def fieldOk (ref : ℚ) (ov : Option ℚ) : Bool :=
  match ov with
  | none => true
  | some v => percent_difference ref v ≤ TOL

/-! ## Real-valued thermodynamic kernels -/

noncomputable section

/-- Modelled from the spec: `chem_util.chem_constants.gas_constant`
(external, not under `src/`), the SI gas constant used throughout; the
value 8.314 J/mol/K is fixed by the passing doctest override
`P_c=0.286*8.314*191.4/0.0001` in `src/gasthermo/__init__.py`. -/
def R : ℝ := 8.314

/-- Modelled from the spec: one cubic equation-of-state family instance
bound to one compound (spec sections 3 and 4.2).  The four families
(Van der Waals, Redlich-Kwong, Soave-Redlich-Kwong, Peng-Robinson) are
distinguished only by the constants `sigma`, `eps`, `Omega`, `Psi` and
by the temperature function `alphaF` with its logarithmic derivative
`dlnalphaF` (with respect to ln of reduced temperature). -/
structure CubicEos where
  sigma : ℝ
  eps : ℝ
  Omega : ℝ
  Psi : ℝ
  alphaF : ℝ → ℝ
  dlnalphaF : ℝ → ℝ
  T_c : ℝ
  P_c : ℝ

/-- Peng-Robinson acentric-factor polynomial. -/
def kappaPR (w : ℝ) : ℝ := 0.37464 + 1.54226 * w - 0.26992 * w ^ 2

/-- Soave acentric-factor polynomial. -/
def kappaSRK (w : ℝ) : ℝ := 0.480 + 1.574 * w - 0.176 * w ^ 2

/-- Modelled from the spec: the Peng-Robinson family
(`gasthermo.eos.cubic.PengRobinson`, not under `src/`). -/
def PengRobinson (T_c P_c w : ℝ) : CubicEos where
  sigma := 1 + Real.sqrt 2
  eps := 1 - Real.sqrt 2
  Omega := 0.07780
  Psi := 0.45724
  alphaF := fun Tr => (1 + kappaPR w * (1 - Real.sqrt Tr)) ^ 2
  dlnalphaF := fun Tr => -(kappaPR w * Real.sqrt Tr) / (1 + kappaPR w * (1 - Real.sqrt Tr))
  T_c := T_c
  P_c := P_c

/-- Modelled from the spec: the Redlich-Kwong family
(`gasthermo.eos.cubic.RedlichKwong`, not under `src/`). -/
def RedlichKwong (T_c P_c : ℝ) : CubicEos where
  sigma := 1
  eps := 0
  Omega := 0.08664
  Psi := 0.42748
  alphaF := fun Tr => (Real.sqrt Tr)⁻¹
  dlnalphaF := fun _ => -(1 / 2)
  T_c := T_c
  P_c := P_c

/-- Modelled from the spec: the Soave-Redlich-Kwong family
(`gasthermo.eos.cubic.SoaveRedlichKwong`, not under `src/`). -/
def SoaveRedlichKwong (T_c P_c w : ℝ) : CubicEos where
  sigma := 1
  eps := 0
  Omega := 0.08664
  Psi := 0.42748
  alphaF := fun Tr => (1 + kappaSRK w * (1 - Real.sqrt Tr)) ^ 2
  dlnalphaF := fun Tr => -(kappaSRK w * Real.sqrt Tr) / (1 + kappaSRK w * (1 - Real.sqrt Tr))
  T_c := T_c
  P_c := P_c

/-- Modelled from the spec: the Van der Waals family
(`gasthermo.eos.cubic.VanDerWaals`, not under `src/`). -/
def VanDerWaals (T_c P_c : ℝ) : CubicEos where
  sigma := 0
  eps := 0
  Omega := 1 / 8
  Psi := 27 / 64
  alphaF := fun _ => 1
  dlnalphaF := fun _ => 0
  T_c := T_c
  P_c := P_c

/-- Reduced temperature. -/
def T_r (e : CubicEos) (T : ℝ) : ℝ := T / e.T_c

/-- Reduced pressure. -/
def P_r (e : CubicEos) (P : ℝ) : ℝ := P / e.P_c

/-- Modelled from the spec: the dimensionless co-volume
`B = b P / (R T) = Omega P_r / T_r` (spec section 3, `CubicPolynomial`). -/
def beta_expr (e : CubicEos) (T P : ℝ) : ℝ := e.Omega * P_r e P / T_r e T

/-- Modelled from the spec: the dimensionless attraction ratio
`q = A / B = Psi alpha / (Omega T_r)` where `A = a P / (R T)^2`
(spec section 3, `CubicPolynomial`). -/
def q_expr (e : CubicEos) (T : ℝ) : ℝ :=
  e.Psi * e.alphaF (T_r e T) / (e.Omega * T_r e T)

/-- A monic cubic polynomial function with coefficients `(1, c2, c1, c0)`. -/
def cubic3 (c2 c1 c0 z : ℝ) : ℝ := z ^ 3 + c2 * z ^ 2 + c1 * z + c0

/-- Quadratic coefficient of the cubic in `Z`. -/
def c2_expr (e : CubicEos) (P T : ℝ) : ℝ :=
  (e.sigma + e.eps) * beta_expr e T P - (1 + beta_expr e T P)

/-- Linear coefficient of the cubic in `Z`. -/
def c1_expr (e : CubicEos) (P T : ℝ) : ℝ :=
  e.sigma * e.eps * beta_expr e T P ^ 2 -
    (1 + beta_expr e T P) * (e.sigma + e.eps) * beta_expr e T P +
    q_expr e T * beta_expr e T P

/-- Constant coefficient of the cubic in `Z`. -/
def c0_expr (e : CubicEos) (P T : ℝ) : ℝ :=
  -((1 + beta_expr e T P) * (e.sigma * e.eps) * beta_expr e T P ^ 2) -
    q_expr e T * beta_expr e T P ^ 2

/-- Modelled from the spec: `cubic_coefficients(P, T) -> (c2, c1, c0)`
(spec section 4.2), the coefficients of the monic cubic in the
compressibility factor `Z`, obtained by expanding
`(Z - 1 - B)(Z + eps B)(Z + sigma B) + q B (Z - B) = 0`. -/
def cubic_coefficients (e : CubicEos) (P T : ℝ) : ℝ × ℝ × ℝ :=
  (c2_expr e P T, c1_expr e P T, c0_expr e P T)

/-- The cubic equation of state as a function of `Z`:
roots of `cubicF e P T` are the compressibility-factor roots. -/
def cubicF (e : CubicEos) (P T z : ℝ) : ℝ :=
  cubic3 (c2_expr e P T) (c1_expr e P T) (c0_expr e P T) z

/-- Discriminant of the monic cubic with coefficients `(1, c2, c1, c0)`. -/
def disc (c2 c1 c0 : ℝ) : ℝ :=
  18 * c2 * c1 * c0 - 4 * c2 ^ 3 * c0 + c2 ^ 2 * c1 ^ 2 - 4 * c1 ^ 3 - 27 * c0 ^ 2

/-- Modelled from the spec: `num_roots(T, P) -> int` (spec section 4.2):
counts real roots of the cubic per sign of the discriminant, returning 3
for a positive discriminant (three distinct real roots) and 1 otherwise;
the measure-zero boundary of a repeated root is treated as the 1-root
case, the tie-break left open by spec section 9. -/
def num_roots (e : CubicEos) (T P : ℝ) : ℕ :=
  if 0 < disc (c2_expr e P T) (c1_expr e P T) (c0_expr e P T) then 3 else 1

/-- Requested phase for root selection. -/
inductive Phase where
  | vapor : Phase
  | liquid : Phase

/-- Modelled from the spec: the input/output relation of
`iterate_to_solve_Z(P, T, phase?) -> Z` (spec section 4.2).  The spec
fixes the contract, not the solving algorithm ("the specification
requires correctness of root classification, not a specific solving
algorithm"), so the returned value is characterised relationally:
`Z` is a positive real root of the cubic, and among the positive real
roots it is the largest for the vapor phase and the smallest for the
liquid phase.  When exactly one positive real root exists both phases
select it, which is the graceful degradation required by section 7. -/
def iterate_to_solve_Z (e : CubicEos) (P T : ℝ) (phase : Phase) (Z : ℝ) : Prop :=
  cubicF e P T Z = 0 ∧ 0 < Z ∧
    match phase with
    | Phase.vapor => ∀ r, cubicF e P T r = 0 → 0 < r → r ≤ Z
    | Phase.liquid => ∀ r, cubicF e P T r = 0 → 0 < r → Z ≤ r

/-- Compressibility factor from `(P, V, T)`. -/
def Z_of (P V T : ℝ) : ℝ := P * V / (R * T)

/-- Modelled from the spec: the departure-function integral term
`I = ln((Z + sigma B)/(Z + eps B)) / (sigma - eps)`, with the
`sigma = eps` limit `I = B / Z` used by the Van der Waals family. -/
def I_expr (e : CubicEos) (P V T : ℝ) : ℝ :=
  if e.sigma = e.eps then beta_expr e T P / Z_of P V T
  else (1 / (e.sigma - e.eps)) *
    Real.log ((Z_of P V T + e.sigma * beta_expr e T P) /
      (Z_of P V T + e.eps * beta_expr e T P))

/-- Modelled from the spec: residual Gibbs energy over `RT`
(`G_R_RT_expr(P, V, T)`, spec section 4.2). -/
def G_R_RT_expr (e : CubicEos) (P V T : ℝ) : ℝ :=
  Z_of P V T - 1 - Real.log (Z_of P V T - beta_expr e T P) -
    q_expr e T * I_expr e P V T

/-- Modelled from the spec: residual enthalpy over `RT`
(`H_R_RT_expr(P, V, T)`, spec section 4.2). -/
def H_R_RT_expr (e : CubicEos) (P V T : ℝ) : ℝ :=
  Z_of P V T - 1 +
    (e.dlnalphaF (T_r e T) - 1) * (q_expr e T * I_expr e P V T)

/-- Modelled from the spec: residual entropy over `R`
(`S_R_R_expr(P, V, T)`, spec section 4.2). -/
def S_R_R_expr (e : CubicEos) (P V T : ℝ) : ℝ :=
  Real.log (Z_of P V T - beta_expr e T P) +
    e.dlnalphaF (T_r e T) * (q_expr e T * I_expr e P V T)

/-! ## Virial kernel -/

/-- Modelled from the spec: one pure compound bound to the second-virial
kernel (`gasthermo.eos.virial.SecondVirial`, not under `src/`). -/
structure SecondVirial where
  T_c : ℝ
  P_c : ℝ
  w : ℝ

/-- Pitzer correlation, simple-fluid part `B^0(T_r)`. -/
def B0_expr (Tr : ℝ) : ℝ := 0.083 - 0.422 / Tr ^ (1.6 : ℝ)

/-- Pitzer correlation, correction part `B^1(T_r)`. -/
def B1_expr (Tr : ℝ) : ℝ := 0.139 - 0.172 / Tr ^ (4.2 : ℝ)

/-- Temperature derivative of `B^0` with respect to `T_r`. -/
def dB0dTr_expr (Tr : ℝ) : ℝ := 0.6752 / Tr ^ (2.6 : ℝ)

/-- Temperature derivative of `B^1` with respect to `T_r`. -/
def dB1dTr_expr (Tr : ℝ) : ℝ := 0.7224 / Tr ^ (5.2 : ℝ)

/-- Modelled from the spec: the pure-compound second virial coefficient
`B(T)` from the Pitzer correlation (spec sections 3 and 4.3). -/
def B_expr (v : SecondVirial) (T : ℝ) : ℝ :=
  R * v.T_c / v.P_c * (B0_expr (T / v.T_c) + v.w * B1_expr (T / v.T_c))

/-- Modelled from the spec: the temperature derivative `dB/dT`, needed by
the residual enthalpy and entropy (spec section 4.3). -/
def dBdT_expr (v : SecondVirial) (T : ℝ) : ℝ :=
  R / v.P_c * (dB0dTr_expr (T / v.T_c) + v.w * dB1dTr_expr (T / v.T_c))

/-- Modelled from the spec: `calc_Z_from_units(P, T) -> Z` using
`Z = 1 + B(T) P / (R T)` (spec section 4.3). -/
def calc_Z_from_units (v : SecondVirial) (P T : ℝ) : ℝ :=
  1 + B_expr v T * P / (R * T)

/-- Modelled from the spec: virial residual Gibbs energy over `RT`,
taking only `(P, T)` (truncated virial expansion). -/
def SecondVirial.G_R_RT_expr (v : SecondVirial) (P T : ℝ) : ℝ :=
  B_expr v T * P / (R * T)

/-- Modelled from the spec: virial residual enthalpy over `RT`. -/
def SecondVirial.H_R_RT_expr (v : SecondVirial) (P T : ℝ) : ℝ :=
  P / R * (B_expr v T / T - dBdT_expr v T)

/-- Modelled from the spec: virial residual entropy over `R`. -/
def SecondVirial.S_R_R_expr (v : SecondVirial) (P T : ℝ) : ℝ :=
  -(P / R) * dBdT_expr v T

/-! ## Virial mixture layer -/

/-- Modelled from the spec: the per-compound data consumed by the
mixture combining rules of `gasthermo.eos.virial.SecondVirialMixture`
(not under `src/`): critical constants of one compound. -/
structure MixComp where
  T_c : ℝ
  P_c : ℝ
  V_c : ℝ
  Z_c : ℝ
  w : ℝ

/-- Combining rule for the cross critical temperature,
`T_cij = sqrt(T_ci T_cj) (1 - k_ij)`. -/
def Tc_ij (ci cj : MixComp) (k : ℝ) : ℝ := Real.sqrt (ci.T_c * cj.T_c) * (1 - k)

/-- Combining rule for the cross critical compressibility factor. -/
def Zc_ij (ci cj : MixComp) : ℝ := (ci.Z_c + cj.Z_c) / 2

/-- Combining rule for the cross acentric factor. -/
def w_ij (ci cj : MixComp) : ℝ := (ci.w + cj.w) / 2

/-- Combining rule for the cross critical volume. -/
def Vc_ij (ci cj : MixComp) : ℝ :=
  ((ci.V_c ^ ((1 : ℝ) / 3) + cj.V_c ^ ((1 : ℝ) / 3)) / 2) ^ (3 : ℕ)

/-- Combining rule for the cross critical pressure,
`P_cij = Z_cij R T_cij / V_cij`. -/
def Pc_ij (ci cj : MixComp) (k : ℝ) : ℝ :=
  Zc_ij ci cj * R * Tc_ij ci cj k / Vc_ij ci cj

/-- Modelled from the spec: the cross second virial coefficient
`B_ij(T)` built from the combining rules parameterised by `k_ij`
(spec section 4.4). -/
def B_ij (ci cj : MixComp) (k T : ℝ) : ℝ :=
  R * Tc_ij ci cj k / Pc_ij ci cj k *
    (B0_expr (T / Tc_ij ci cj k) + w_ij ci cj * B1_expr (T / Tc_ij ci cj k))

/-- The pure-compound virial kernel derived from mixture compound data. -/
def MixComp.pure (ci : MixComp) : SecondVirial := ⟨ci.T_c, ci.P_c, ci.w⟩

/-! ## Concrete compounds (reference database entries) -/

/-- Modelled from the spec: the reference-database (DIPPR) entry for
Propane, spec section 6 treats the database as an injected read-only
data source; standard DIPPR values. -/
def propane : CriticalConstants :=
  ⟨369.83, 4248000, 0.0002, 0.276, 0.152, 44.0956⟩

/-- Modelled from the spec: the reference-database (DIPPR) entry for
Methane; standard DIPPR values, consistent with every Methane doctest of
`src/gasthermo/__init__.py`. -/
def methaneRef : CriticalConstants :=
  ⟨190.564, 4599000, 0.0000986, 0.286, 0.0115, 16.0425⟩

/-- The full custom-override set for Methane used by the doctests in
`src/gasthermo/__init__.py` (`T_c=191.4, V_c=0.0001, Z_c=0.286,
w=0.0115, MW=16.042, P_c=0.286*8.314*191.4/0.0001`). -/
def methaneCustomOv : CriticalOverrides :=
  ⟨some 191.4, some 4551116.856, some 0.0001, some 0.286, some 0.0115, some 16.042⟩

/-- The validated constants produced by the custom-override doctest. -/
def methaneCustom : CriticalConstants :=
  ⟨191.4, 4551116.856, 0.0001, 0.286, 0.0115, 16.042⟩

/-- Peng-Robinson instance built from validated critical constants. -/
def PengRobinsonOfCC (cc : CriticalConstants) : CubicEos :=
  PengRobinson (cc.T_c : ℝ) (cc.P_c : ℝ) (cc.w : ℝ)

/-- `PengRobinson(compound_name='Propane')`. -/
def prPropane : CubicEos := PengRobinsonOfCC propane

/-- `RedlichKwong(compound_name='Propane')`. -/
def rkPropane : CubicEos := RedlichKwong ((propane.T_c : ℝ)) ((propane.P_c : ℝ))

/-- `PengRobinson(compound_name='Methane')` from the reference database. -/
def prMethane : CubicEos := PengRobinsonOfCC methaneRef

/-- `PengRobinson(compound_name='Methane', ...)` with the custom
within-tolerance constants of the doctest. -/
def prMethaneCustom : CubicEos := PengRobinsonOfCC methaneCustom

/-- `SecondVirial(compound_name='Propane')`. -/
def svPropane : SecondVirial :=
  ⟨(propane.T_c : ℝ), (propane.P_c : ℝ), (propane.w : ℝ)⟩

/-- The failing-override set of the first error doctest
(`T_c=273.-191.4`, all other overrides within tolerance). -/
def methaneBadTcOv : CriticalOverrides :=
  ⟨some (273 - 191.4), some 4551116.856, some 0.0001, some 0.286, some 0.0115,
    some 16.042⟩

/-- Methane as a virial-mixture compound, using the self-consistent
custom constants (`P_c = Z_c R T_c / V_c` holds exactly). -/
def mixMethane : MixComp := ⟨191.4, 4551116.856, 0.0001, 0.286, 0.0115⟩

/-- Propane as a virial-mixture compound. -/
def mixPropane : MixComp := ⟨369.83, 4248000, 0.0002, 0.276, 0.152⟩

/-! ## Interval helpers for the numerical theorems -/

/-- Rational two-sided bounds for a real square root, certified by
squaring the endpoints. -/
lemma sqrtBounds {x lo hi : ℝ} (hlo : 0 ≤ lo) (h1 : lo ^ 2 ≤ x) (h2 : x ≤ hi ^ 2)
    (hhi : 0 ≤ hi) : lo ≤ Real.sqrt x ∧ Real.sqrt x ≤ hi := by
  have hx : 0 ≤ x := le_trans (by positivity) h1
  have hs : Real.sqrt x ^ 2 = x := Real.sq_sqrt hx
  have hsn : 0 ≤ Real.sqrt x := Real.sqrt_nonneg x
  constructor <;> nlinarith [hs, hsn]

/-- A sign change of a monic cubic on a bracket `[lo, hi]` with the extra
convexity-side conditions `0 < 3 lo + c2` and `0 < 3 lo^2 + 2 c2 hi + c1`
(for `c2 ≤ 0`, `0 ≤ lo`) locates a root inside the bracket that is the
greatest real root of the cubic. -/
lemma cubic_max_root_bracket (c2 c1 c0 lo hi : ℝ) (h0 : 0 ≤ lo) (hlh : lo < hi)
    (hc2 : c2 ≤ 0)
    (hflo : cubic3 c2 c1 c0 lo < 0) (hfhi : 0 < cubic3 c2 c1 c0 hi)
    (hd2 : 0 < 3 * lo + c2) (hd1 : 0 < 3 * lo ^ 2 + 2 * c2 * hi + c1) :
    ∃ r, lo < r ∧ r < hi ∧ cubic3 c2 c1 c0 r = 0 ∧
      ∀ z, cubic3 c2 c1 c0 z = 0 → z ≤ r := by
  have hcont : ContinuousOn (fun z => cubic3 c2 c1 c0 z) (Set.Icc lo hi) := by
    apply Continuous.continuousOn
    unfold cubic3
    fun_prop
  have hsub := intermediate_value_Ioo (le_of_lt hlh) hcont
  have h0mem : (0 : ℝ) ∈ Set.Ioo (cubic3 c2 c1 c0 lo) (cubic3 c2 c1 c0 hi) :=
    ⟨hflo, hfhi⟩
  obtain ⟨r, hrmem, hr⟩ := hsub h0mem
  refine ⟨r, hrmem.1, hrmem.2, hr, ?_⟩
  intro z hz
  by_contra hzr
  push_neg at hzr
  have hrlo : lo < r := hrmem.1
  have hrhi : r < hi := hrmem.2
  have hQr : 0 < 3 * r ^ 2 + 2 * c2 * r + c1 := by
    nlinarith [mul_nonneg (sub_nonneg.2 hrlo.le) (by linarith : (0 : ℝ) ≤ r + lo),
      mul_nonneg (neg_nonneg.2 hc2) (sub_nonneg.2 hrhi.le)]
  have hlin : 0 < z + 2 * r + c2 := by linarith
  have hQ : 0 < z ^ 2 + z * r + r ^ 2 + c2 * (z + r) + c1 := by
    nlinarith [mul_pos (sub_pos.2 hzr) hlin]
  have hfz : cubic3 c2 c1 c0 z =
      cubic3 c2 c1 c0 r + (z - r) * (z ^ 2 + z * r + r ^ 2 + c2 * (z + r) + c1) := by
    unfold cubic3; ring
  nlinarith [mul_pos (sub_pos.2 hzr) hQ]

/-- A sign change of a monic cubic on a bracket `[lo, hi]` with the extra
concavity-side conditions `3 hi + c2 < 0` and `0 < 2 c2 hi + c1`
(for `c2 ≤ 0`, `0 ≤ lo`) locates a root inside the bracket that is the
least positive real root of the cubic. -/
lemma cubic_min_root_bracket (c2 c1 c0 lo hi : ℝ) (h0 : 0 ≤ lo) (hlh : lo < hi)
    (hc2 : c2 ≤ 0)
    (hflo : cubic3 c2 c1 c0 lo < 0) (hfhi : 0 < cubic3 c2 c1 c0 hi)
    (hneg : 3 * hi + c2 < 0) (hd1 : 0 < 2 * c2 * hi + c1) :
    ∃ r, lo < r ∧ r < hi ∧ cubic3 c2 c1 c0 r = 0 ∧
      ∀ z, cubic3 c2 c1 c0 z = 0 → 0 < z → r ≤ z := by
  have hcont : ContinuousOn (fun z => cubic3 c2 c1 c0 z) (Set.Icc lo hi) := by
    apply Continuous.continuousOn
    unfold cubic3
    fun_prop
  have hsub := intermediate_value_Ioo (le_of_lt hlh) hcont
  have h0mem : (0 : ℝ) ∈ Set.Ioo (cubic3 c2 c1 c0 lo) (cubic3 c2 c1 c0 hi) :=
    ⟨hflo, hfhi⟩
  obtain ⟨r, hrmem, hr⟩ := hsub h0mem
  refine ⟨r, hrmem.1, hrmem.2, hr, ?_⟩
  intro z hz hzpos
  by_contra hzr
  push_neg at hzr
  have hrlo : lo < r := hrmem.1
  have hrhi : r < hi := hrmem.2
  rcases le_or_lt z lo with hzlo | hzlo
  · -- no root at or below lo: the cubic is negative there
    have hQlo : 0 < 3 * lo ^ 2 + 2 * c2 * lo + c1 := by
      nlinarith [sq_nonneg lo, mul_nonneg (neg_nonneg.2 hc2) (sub_nonneg.2 hlh.le)]
    have hlin2 : z + 2 * lo + c2 < 0 := by linarith
    have hQ : 0 < z ^ 2 + z * lo + lo ^ 2 + c2 * (z + lo) + c1 := by
      nlinarith [mul_nonneg (sub_nonneg.2 hzlo) (by linarith : (0 : ℝ) ≤ -(z + 2 * lo + c2))]
    have hfz : cubic3 c2 c1 c0 z =
        cubic3 c2 c1 c0 lo + (z - lo) * (z ^ 2 + z * lo + lo ^ 2 + c2 * (z + lo) + c1) := by
      unfold cubic3; ring
    nlinarith [mul_nonneg (sub_nonneg.2 hzlo) hQ.le]
  · -- no root strictly between lo and r
    have hzhi : z < hi := by linarith
    have hQ : 0 < z ^ 2 + z * r + r ^ 2 + c2 * (z + r) + c1 := by
      nlinarith [mul_pos hzpos (by linarith : (0 : ℝ) < r), sq_nonneg z, sq_nonneg r,
        mul_nonneg (neg_nonneg.2 hc2) (sub_nonneg.2 hzhi.le),
        mul_nonneg (neg_nonneg.2 hc2) (sub_nonneg.2 hrhi.le)]
    have hfz : cubic3 c2 c1 c0 z =
        cubic3 c2 c1 c0 r + (z - r) * (z ^ 2 + z * r + r ^ 2 + c2 * (z + r) + c1) := by
      unfold cubic3; ring
    nlinarith [mul_pos (sub_pos.2 hzr) hQ]

end

/-! ## Family-specific normal forms of the cubic -/

lemma PR_sigma_add (a b w : ℝ) :
    (PengRobinson a b w).sigma + (PengRobinson a b w).eps = 2 := by
  simp [PengRobinson]
  ring

lemma PR_sigma_mul (a b w : ℝ) :
    (PengRobinson a b w).sigma * (PengRobinson a b w).eps = -1 := by
  simp only [PengRobinson]
  have h2 : Real.sqrt 2 ^ 2 = 2 := Real.sq_sqrt (by norm_num)
  nlinarith [h2]

/-- Peng-Robinson: since `sigma + eps = 2` and `sigma * eps = -1`, the
cubic reduces to rational data in `beta` and `q`. -/
lemma PR_cubicF (a b w P T z : ℝ) :
    cubicF (PengRobinson a b w) P T z =
      cubic3 (beta_expr (PengRobinson a b w) T P - 1)
        (q_expr (PengRobinson a b w) T * beta_expr (PengRobinson a b w) T P -
          2 * beta_expr (PengRobinson a b w) T P -
          3 * beta_expr (PengRobinson a b w) T P ^ 2)
        (beta_expr (PengRobinson a b w) T P ^ 3 +
          beta_expr (PengRobinson a b w) T P ^ 2 -
          q_expr (PengRobinson a b w) T * beta_expr (PengRobinson a b w) T P ^ 2) z := by
  have h1 := PR_sigma_add a b w
  have h2 := PR_sigma_mul a b w
  unfold cubicF c2_expr c1_expr c0_expr cubic3
  rw [h1, h2]
  ring

/-- Redlich-Kwong (`sigma = 1`, `eps = 0`): the cubic in `beta`-`q` form. -/
lemma RK_cubicF (a b P T z : ℝ) :
    cubicF (RedlichKwong a b) P T z =
      cubic3 (-1)
        (q_expr (RedlichKwong a b) T * beta_expr (RedlichKwong a b) T P -
          beta_expr (RedlichKwong a b) T P - beta_expr (RedlichKwong a b) T P ^ 2)
        (-(q_expr (RedlichKwong a b) T * beta_expr (RedlichKwong a b) T P ^ 2)) z := by
  unfold cubicF c2_expr c1_expr c0_expr cubic3
  simp only [RedlichKwong]
  ring

/-- Two-sided bounds on `q = c * (1 + kappa (1 - s))^2` from bounds on the
base `1 + kappa (1 - s)`. -/
lemma q_bounds_of_sqrt (qv s k c blo bhi qlo qhi : ℝ)
    (hqv : qv = c * (1 + k * (1 - s)) ^ 2)
    (hblo : blo ≤ 1 + k * (1 - s)) (hbhi : 1 + k * (1 - s) ≤ bhi)
    (hblo0 : 0 ≤ blo) (hc : 0 ≤ c)
    (hqlo : qlo ≤ c * blo ^ 2) (hqhi : c * bhi ^ 2 ≤ qhi) :
    qlo ≤ qv ∧ qv ≤ qhi := by
  constructor
  · have h1 : blo ^ 2 ≤ (1 + k * (1 - s)) ^ 2 := by nlinarith
    nlinarith [mul_le_mul_of_nonneg_left h1 hc]
  · have hb0 : 0 ≤ 1 + k * (1 - s) := le_trans hblo0 hblo
    have h1 : (1 + k * (1 - s)) ^ 2 ≤ bhi ^ 2 := by nlinarith
    nlinarith [mul_le_mul_of_nonneg_left h1 hc]

/-- Two-sided bounds on `q = c / s` from bounds on `s`. -/
lemma q_bounds_of_inv (qv s c slo shi qlo qhi : ℝ)
    (hqv : qv = c * s⁻¹) (hs1 : slo ≤ s) (hs2 : s ≤ shi) (hslo : 0 < slo)
    (hc : 0 ≤ c) (hqlo : qlo ≤ c / shi) (hqhi : c / slo ≤ qhi) :
    qlo ≤ qv ∧ qv ≤ qhi := by
  have hspos : 0 < s := lt_of_lt_of_le hslo hs1
  have hshipos : 0 < shi := lt_of_lt_of_le hslo (le_trans hs1 hs2)
  constructor
  · have h1 : c / shi ≤ c / s := by
      apply div_le_div_of_nonneg_left hc hspos hs2
    rw [hqv, ← div_eq_mul_inv]
    linarith
  · have h1 : c / s ≤ c / slo := by
      apply div_le_div_of_nonneg_left hc hslo hs1
    rw [hqv, ← div_eq_mul_inv]
    linarith

/-! ## Case data: Propane, Peng-Robinson, T = 300 K, P = 8e5 Pa -/

lemma beta_prPropane_8e5 : beta_expr prPropane 300 800000 = 14386387 / 796500000 := by
  simp [beta_expr, P_r, T_r, prPropane, PengRobinsonOfCC, PengRobinson, propane]
  norm_num

lemma q_prPropane_300_eq : q_expr prPropane 300 =
    0.45724 / (0.0778 * (30000 / 36983)) *
      (1 + 470958819 / 781250000 * (1 - Real.sqrt (30000 / 36983))) ^ 2 := by
  have harg : ((300 : ℝ) / ((369.83 : ℚ) : ℝ)) = 30000 / 36983 := by norm_num
  simp only [q_expr, T_r, prPropane, PengRobinsonOfCC, PengRobinson, propane, kappaPR]
  rw [harg]
  norm_num
  ring

lemma q_prPropane_300_bounds :
    (8.1388722212 : ℝ) ≤ q_expr prPropane 300 ∧
      q_expr prPropane 300 ≤ 8.1388722213 := by
  obtain ⟨hs1, hs2⟩ := @sqrtBounds ((30000 : ℝ) / 36983)
    (450328634651 / 500000000000) (450328634653 / 500000000000)
    (by norm_num) (by norm_num) (by norm_num) (by norm_num)
  exact q_bounds_of_sqrt (q_expr prPropane 300) (Real.sqrt (30000 / 36983))
    (470958819 / 781250000) (0.45724 / (0.0778 * (30000 / 36983)))
    (1 + 470958819 / 781250000 * (1 - 450328634653 / 500000000000))
    (1 + 470958819 / 781250000 * (1 - 450328634651 / 500000000000))
    8.1388722212 8.1388722213
    q_prPropane_300_eq (by nlinarith) (by nlinarith) (by norm_num) (by norm_num)
    (by norm_num) (by norm_num)

/-- The greatest real root of the Peng-Robinson propane cubic at
`(P, T) = (8e5, 300)` lies in `(0.85682, 0.85686)`. -/
lemma prPropane_vapor_root :
    ∃ r, 0.85682 < r ∧ r < 0.85686 ∧ cubicF prPropane 800000 300 r = 0 ∧
      ∀ z, cubicF prPropane 800000 300 z = 0 → z ≤ r := by
  obtain ⟨hq1, hq2⟩ := q_prPropane_300_bounds
  have hF : ∀ z, cubicF prPropane 800000 300 z =
      cubic3 (14386387 / 796500000 - 1)
        (q_expr prPropane 300 * (14386387 / 796500000) - 2 * (14386387 / 796500000) -
          3 * (14386387 / 796500000) ^ 2)
        ((14386387 / 796500000) ^ 3 + (14386387 / 796500000) ^ 2 -
          q_expr prPropane 300 * (14386387 / 796500000) ^ 2) z := by
    intro z
    have h := PR_cubicF ((propane.T_c : ℝ)) ((propane.P_c : ℝ)) ((propane.w : ℝ)) 800000 300 z
    have hPR : PengRobinson ((propane.T_c : ℝ)) ((propane.P_c : ℝ)) ((propane.w : ℝ)) = prPropane := rfl
    rw [hPR, beta_prPropane_8e5] at h
    exact h
  obtain ⟨r, h1, h2, h3, h4⟩ := cubic_max_root_bracket
    (14386387 / 796500000 - 1)
    (q_expr prPropane 300 * (14386387 / 796500000) - 2 * (14386387 / 796500000) -
      3 * (14386387 / 796500000) ^ 2)
    ((14386387 / 796500000) ^ 3 + (14386387 / 796500000) ^ 2 -
      q_expr prPropane 300 * (14386387 / 796500000) ^ 2)
    0.85682 0.85686 (by norm_num) (by norm_num) (by norm_num)
    (by unfold cubic3; nlinarith) (by unfold cubic3; nlinarith)
    (by norm_num) (by nlinarith)
  refine ⟨r, h1, h2, ?_, ?_⟩
  · rw [hF]; exact h3
  · intro z hz
    exact h4 z (by rw [← hF]; exact hz)

/-- The least positive real root of the Peng-Robinson propane cubic at
`(P, T) = (8e5, 300)` lies in `(0.02785, 0.02793)`. -/
lemma prPropane_liquid_root :
    ∃ r, 0.02785 < r ∧ r < 0.02793 ∧ cubicF prPropane 800000 300 r = 0 ∧
      ∀ z, cubicF prPropane 800000 300 z = 0 → 0 < z → r ≤ z := by
  obtain ⟨hq1, hq2⟩ := q_prPropane_300_bounds
  have hF : ∀ z, cubicF prPropane 800000 300 z =
      cubic3 (14386387 / 796500000 - 1)
        (q_expr prPropane 300 * (14386387 / 796500000) - 2 * (14386387 / 796500000) -
          3 * (14386387 / 796500000) ^ 2)
        ((14386387 / 796500000) ^ 3 + (14386387 / 796500000) ^ 2 -
          q_expr prPropane 300 * (14386387 / 796500000) ^ 2) z := by
    intro z
    have h := PR_cubicF ((propane.T_c : ℝ)) ((propane.P_c : ℝ)) ((propane.w : ℝ)) 800000 300 z
    have hPR : PengRobinson ((propane.T_c : ℝ)) ((propane.P_c : ℝ)) ((propane.w : ℝ)) = prPropane := rfl
    rw [hPR, beta_prPropane_8e5] at h
    exact h
  obtain ⟨r, h1, h2, h3, h4⟩ := cubic_min_root_bracket
    (14386387 / 796500000 - 1)
    (q_expr prPropane 300 * (14386387 / 796500000) - 2 * (14386387 / 796500000) -
      3 * (14386387 / 796500000) ^ 2)
    ((14386387 / 796500000) ^ 3 + (14386387 / 796500000) ^ 2 -
      q_expr prPropane 300 * (14386387 / 796500000) ^ 2)
    0.02785 0.02793 (by norm_num) (by norm_num) (by norm_num)
    (by unfold cubic3; nlinarith) (by unfold cubic3; nlinarith)
    (by norm_num) (by nlinarith)
  refine ⟨r, h1, h2, ?_, ?_⟩
  · rw [hF]; exact h3
  · intro z hz hzpos
    exact h4 z (by rw [← hF]; exact hz) hzpos

/-! ## Case data: Propane, Redlich-Kwong, T = 300 K, P = 8e5 Pa -/

lemma beta_rkPropane_8e5 : beta_expr rkPropane 300 800000 = 13350863 / 663750000 := by
  simp [beta_expr, P_r, T_r, rkPropane, RedlichKwong, propane]
  norm_num

lemma q_rkPropane_300_eq : q_expr rkPropane 300 =
    0.42748 / (0.08664 * (30000 / 36983)) * (Real.sqrt (30000 / 36983))⁻¹ := by
  have harg : ((300 : ℝ) / ((369.83 : ℚ) : ℝ)) = 30000 / 36983 := by norm_num
  simp only [q_expr, T_r, rkPropane, RedlichKwong, propane]
  rw [harg]
  ring

lemma q_rkPropane_300_bounds :
    (6.7533410302 : ℝ) ≤ q_expr rkPropane 300 ∧
      q_expr rkPropane 300 ≤ 6.7533410303 := by
  obtain ⟨hs1, hs2⟩ := @sqrtBounds ((30000 : ℝ) / 36983)
    (450328634651 / 500000000000) (450328634653 / 500000000000)
    (by norm_num) (by norm_num) (by norm_num) (by norm_num)
  exact q_bounds_of_inv (q_expr rkPropane 300) (Real.sqrt (30000 / 36983))
    (0.42748 / (0.08664 * (30000 / 36983)))
    (450328634651 / 500000000000) (450328634653 / 500000000000)
    6.7533410302 6.7533410303
    q_rkPropane_300_eq hs1 hs2 (by norm_num) (by norm_num) (by norm_num) (by norm_num)

/-- The greatest real root of the Redlich-Kwong propane cubic at
`(P, T) = (8e5, 300)` lies in `(0.87120, 0.87127)`. -/
lemma rkPropane_vapor_root :
    ∃ r, 0.87120 < r ∧ r < 0.87127 ∧ cubicF rkPropane 800000 300 r = 0 ∧
      ∀ z, cubicF rkPropane 800000 300 z = 0 → z ≤ r := by
  obtain ⟨hq1, hq2⟩ := q_rkPropane_300_bounds
  have hF : ∀ z, cubicF rkPropane 800000 300 z =
      cubic3 (-1)
        (q_expr rkPropane 300 * (13350863 / 663750000) - 13350863 / 663750000 -
          (13350863 / 663750000) ^ 2)
        (-(q_expr rkPropane 300 * (13350863 / 663750000) ^ 2)) z := by
    intro z
    have h := RK_cubicF ((propane.T_c : ℝ)) ((propane.P_c : ℝ)) 800000 300 z
    have hRK : RedlichKwong ((propane.T_c : ℝ)) ((propane.P_c : ℝ)) = rkPropane := rfl
    rw [hRK, beta_rkPropane_8e5] at h
    exact h
  obtain ⟨r, h1, h2, h3, h4⟩ := cubic_max_root_bracket (-1)
    (q_expr rkPropane 300 * (13350863 / 663750000) - 13350863 / 663750000 -
      (13350863 / 663750000) ^ 2)
    (-(q_expr rkPropane 300 * (13350863 / 663750000) ^ 2))
    0.87120 0.87127 (by norm_num) (by norm_num) (by norm_num)
    (by unfold cubic3; nlinarith) (by unfold cubic3; nlinarith)
    (by norm_num) (by nlinarith)
  refine ⟨r, h1, h2, ?_, ?_⟩
  · rw [hF]; exact h3
  · intro z hz
    exact h4 z (by rw [← hF]; exact hz)

/-! ## Case data: Methane, Peng-Robinson, T = 300 K, P = 8e5 Pa,
reference constants and within-tolerance custom constants -/

lemma beta_prMethane_8e5 : beta_expr prMethane 300 800000 = 18532349 / 2155781250 := by
  simp [beta_expr, P_r, T_r, prMethane, PengRobinsonOfCC, PengRobinson, methaneRef]
  norm_num

lemma q_prMethane_300_eq : q_expr prMethane 300 =
    0.45724 / (0.0778 * (75000 / 47641)) *
      (1 + 9808507327 / 25000000000 * (1 - Real.sqrt (75000 / 47641))) ^ 2 := by
  have harg : ((300 : ℝ) / ((190.564 : ℚ) : ℝ)) = 75000 / 47641 := by norm_num
  simp only [q_expr, T_r, prMethane, PengRobinsonOfCC, PengRobinson, methaneRef, kappaPR]
  rw [harg]
  norm_num
  ring

lemma q_prMethane_300_bounds :
    (3.0243870188 : ℝ) ≤ q_expr prMethane 300 ∧
      q_expr prMethane 300 ≤ 3.0243870189 := by
  obtain ⟨hs1, hs2⟩ := @sqrtBounds ((75000 : ℝ) / 47641)
    (1254700864573 / 1000000000000) (1254700864577 / 1000000000000)
    (by norm_num) (by norm_num) (by norm_num) (by norm_num)
  exact q_bounds_of_sqrt (q_expr prMethane 300) (Real.sqrt (75000 / 47641))
    (9808507327 / 25000000000) (0.45724 / (0.0778 * (75000 / 47641)))
    (1 + 9808507327 / 25000000000 * (1 - 1254700864577 / 1000000000000))
    (1 + 9808507327 / 25000000000 * (1 - 1254700864573 / 1000000000000))
    3.0243870188 3.0243870189
    q_prMethane_300_eq (by nlinarith) (by nlinarith) (by norm_num) (by norm_num)
    (by norm_num) (by norm_num)

/-- The greatest real root of the Peng-Robinson methane cubic (reference
constants) at `(P, T) = (8e5, 300)` lies in `(0.98280, 0.98285)`. -/
lemma prMethane_vapor_root :
    ∃ r, 0.98280 < r ∧ r < 0.98285 ∧ cubicF prMethane 800000 300 r = 0 ∧
      ∀ z, cubicF prMethane 800000 300 z = 0 → z ≤ r := by
  obtain ⟨hq1, hq2⟩ := q_prMethane_300_bounds
  have hF : ∀ z, cubicF prMethane 800000 300 z =
      cubic3 (18532349 / 2155781250 - 1)
        (q_expr prMethane 300 * (18532349 / 2155781250) - 2 * (18532349 / 2155781250) -
          3 * (18532349 / 2155781250) ^ 2)
        ((18532349 / 2155781250) ^ 3 + (18532349 / 2155781250) ^ 2 -
          q_expr prMethane 300 * (18532349 / 2155781250) ^ 2) z := by
    intro z
    have h := PR_cubicF ((methaneRef.T_c : ℝ)) ((methaneRef.P_c : ℝ)) ((methaneRef.w : ℝ)) 800000 300 z
    have hPR : PengRobinson ((methaneRef.T_c : ℝ)) ((methaneRef.P_c : ℝ)) ((methaneRef.w : ℝ)) = prMethane := rfl
    rw [hPR, beta_prMethane_8e5] at h
    exact h
  obtain ⟨r, h1, h2, h3, h4⟩ := cubic_max_root_bracket
    (18532349 / 2155781250 - 1)
    (q_expr prMethane 300 * (18532349 / 2155781250) - 2 * (18532349 / 2155781250) -
      3 * (18532349 / 2155781250) ^ 2)
    ((18532349 / 2155781250) ^ 3 + (18532349 / 2155781250) ^ 2 -
      q_expr prMethane 300 * (18532349 / 2155781250) ^ 2)
    0.98280 0.98285 (by norm_num) (by norm_num) (by norm_num)
    (by unfold cubic3; nlinarith) (by unfold cubic3; nlinarith)
    (by norm_num) (by nlinarith)
  refine ⟨r, h1, h2, ?_, ?_⟩
  · rw [hF]; exact h3
  · intro z hz
    exact h4 z (by rw [← hF]; exact hz)

lemma beta_prMethaneCustom_8e5 :
    beta_expr prMethaneCustom 300 800000 = 15560 / 1783353 := by
  simp [beta_expr, P_r, T_r, prMethaneCustom, PengRobinsonOfCC, PengRobinson, methaneCustom]
  norm_num

lemma q_prMethaneCustom_300_eq : q_expr prMethaneCustom 300 =
    0.45724 / (0.0778 * (500 / 319)) *
      (1 + 9808507327 / 25000000000 * (1 - Real.sqrt (500 / 319))) ^ 2 := by
  have harg : ((300 : ℝ) / ((191.4 : ℚ) : ℝ)) = 500 / 319 := by norm_num
  simp only [q_expr, T_r, prMethaneCustom, PengRobinsonOfCC, PengRobinson, methaneCustom, kappaPR]
  rw [harg]
  norm_num
  ring

lemma q_prMethaneCustom_300_bounds :
    (3.0449237567 : ℝ) ≤ q_expr prMethaneCustom 300 ∧
      q_expr prMethaneCustom 300 ≤ 3.0449237568 := by
  obtain ⟨hs1, hs2⟩ := @sqrtBounds ((500 : ℝ) / 319)
    (312989428647 / 250000000000) (39123678581 / 31250000000)
    (by norm_num) (by norm_num) (by norm_num) (by norm_num)
  exact q_bounds_of_sqrt (q_expr prMethaneCustom 300) (Real.sqrt (500 / 319))
    (9808507327 / 25000000000) (0.45724 / (0.0778 * (500 / 319)))
    (1 + 9808507327 / 25000000000 * (1 - 39123678581 / 31250000000))
    (1 + 9808507327 / 25000000000 * (1 - 312989428647 / 250000000000))
    3.0449237567 3.0449237568
    q_prMethaneCustom_300_eq (by nlinarith) (by nlinarith) (by norm_num) (by norm_num)
    (by norm_num) (by norm_num)

/-- The greatest real root of the Peng-Robinson methane cubic (custom
within-tolerance constants) at `(P, T) = (8e5, 300)` lies in
`(0.98236, 0.98241)`. -/
lemma prMethaneCustom_vapor_root :
    ∃ r, 0.98236 < r ∧ r < 0.98241 ∧ cubicF prMethaneCustom 800000 300 r = 0 ∧
      ∀ z, cubicF prMethaneCustom 800000 300 z = 0 → z ≤ r := by
  obtain ⟨hq1, hq2⟩ := q_prMethaneCustom_300_bounds
  have hF : ∀ z, cubicF prMethaneCustom 800000 300 z =
      cubic3 (15560 / 1783353 - 1)
        (q_expr prMethaneCustom 300 * (15560 / 1783353) - 2 * (15560 / 1783353) -
          3 * (15560 / 1783353) ^ 2)
        ((15560 / 1783353) ^ 3 + (15560 / 1783353) ^ 2 -
          q_expr prMethaneCustom 300 * (15560 / 1783353) ^ 2) z := by
    intro z
    have h := PR_cubicF ((methaneCustom.T_c : ℝ)) ((methaneCustom.P_c : ℝ)) ((methaneCustom.w : ℝ)) 800000 300 z
    have hPR : PengRobinson ((methaneCustom.T_c : ℝ)) ((methaneCustom.P_c : ℝ)) ((methaneCustom.w : ℝ)) = prMethaneCustom := rfl
    rw [hPR, beta_prMethaneCustom_8e5] at h
    exact h
  obtain ⟨r, h1, h2, h3, h4⟩ := cubic_max_root_bracket
    (15560 / 1783353 - 1)
    (q_expr prMethaneCustom 300 * (15560 / 1783353) - 2 * (15560 / 1783353) -
      3 * (15560 / 1783353) ^ 2)
    ((15560 / 1783353) ^ 3 + (15560 / 1783353) ^ 2 -
      q_expr prMethaneCustom 300 * (15560 / 1783353) ^ 2)
    0.98236 0.98241 (by norm_num) (by norm_num) (by norm_num)
    (by unfold cubic3; nlinarith) (by unfold cubic3; nlinarith)
    (by norm_num) (by nlinarith)
  refine ⟨r, h1, h2, ?_, ?_⟩
  · rw [hF]; exact h3
  · intro z hz
    exact h4 z (by rw [← hF]; exact hz)

/-! ## More interval helpers -/

lemma cubic_root_of_sign_change (c2 c1 c0 a b : ℝ) (hab : a ≤ b)
    (h1 : cubic3 c2 c1 c0 a < 0) (h2 : 0 < cubic3 c2 c1 c0 b) :
    ∃ r, a < r ∧ r < b ∧ cubic3 c2 c1 c0 r = 0 := by
  have hcont : ContinuousOn (fun z => cubic3 c2 c1 c0 z) (Set.Icc a b) := by
    apply Continuous.continuousOn
    unfold cubic3
    fun_prop
  obtain ⟨r, hrmem, hr⟩ := intermediate_value_Ioo hab hcont ⟨h1, h2⟩
  exact ⟨r, hrmem.1, hrmem.2, hr⟩

lemma cubic_root_of_sign_change_down (c2 c1 c0 a b : ℝ) (hab : a ≤ b)
    (h1 : 0 < cubic3 c2 c1 c0 a) (h2 : cubic3 c2 c1 c0 b < 0) :
    ∃ r, a < r ∧ r < b ∧ cubic3 c2 c1 c0 r = 0 := by
  have hcont : ContinuousOn (fun z => cubic3 c2 c1 c0 z) (Set.Icc a b) := by
    apply Continuous.continuousOn
    unfold cubic3
    fun_prop
  obtain ⟨r, hrmem, hr⟩ := intermediate_value_Ioo' hab hcont ⟨h2, h1⟩
  exact ⟨r, hrmem.1, hrmem.2, hr⟩

/-- A monic cubic with `c2 ^ 2 < 3 c1` has positive derivative everywhere
and is therefore strictly monotone. -/
lemma cubic_strictMono (c2 c1 c0 : ℝ) (h : c2 ^ 2 < 3 * c1) :
    StrictMono (fun z => cubic3 c2 c1 c0 z) := by
  intro a b hab
  simp only
  have hQ : 0 < a ^ 2 + a * b + b ^ 2 + c2 * (a + b) + c1 := by
    nlinarith [sq_nonneg (2 * a + b + c2), sq_nonneg (3 * b + c2)]
  have hfz : cubic3 c2 c1 c0 b =
      cubic3 c2 c1 c0 a + (b - a) * (a ^ 2 + a * b + b ^ 2 + c2 * (a + b) + c1) := by
    unfold cubic3; ring
  nlinarith [mul_pos (sub_pos.2 hab) hQ]

/-- Rational two-sided bounds for `x ^ (m / n)` (real exponentiation),
certified by comparing `n`-th powers with `x ^ m`. -/
lemma rpow_div_nat_bounds (x lo hi : ℝ) (m n : ℕ) (hx : 0 < x) (hn : n ≠ 0)
    (hlo : 0 ≤ lo) (h1 : lo ^ n ≤ x ^ m) (h2 : x ^ m ≤ hi ^ n) (hhi : 0 ≤ hi) :
    lo ≤ x ^ ((m : ℝ) / (n : ℝ)) ∧ x ^ ((m : ℝ) / (n : ℝ)) ≤ hi := by
  have hnR : ((n : ℝ)) ≠ 0 := Nat.cast_ne_zero.2 hn
  have key : (x ^ ((m : ℝ) / (n : ℝ))) ^ n = x ^ m := by
    rw [← Real.rpow_natCast (x ^ ((m : ℝ) / (n : ℝ))) n, ← Real.rpow_mul hx.le,
      div_mul_cancel₀ _ hnR, Real.rpow_natCast]
  have hy : 0 ≤ x ^ ((m : ℝ) / (n : ℝ)) := Real.rpow_nonneg hx.le _
  constructor
  · by_contra hc
    push_neg at hc
    have hlt : (x ^ ((m : ℝ) / (n : ℝ))) ^ n < lo ^ n := by
      exact pow_lt_pow_left₀ hc hy hn
    rw [key] at hlt
    linarith
  · by_contra hc
    push_neg at hc
    have hlt : hi ^ n < (x ^ ((m : ℝ) / (n : ℝ))) ^ n := by
      exact pow_lt_pow_left₀ hc hhi hn
    rw [key] at hlt
    linarith

/-! ## Case data: Propane, Peng-Robinson, num_roots regimes -/

lemma PR_coeffs (a b w P T : ℝ) :
    c2_expr (PengRobinson a b w) P T = beta_expr (PengRobinson a b w) T P - 1 ∧
    c1_expr (PengRobinson a b w) P T =
      q_expr (PengRobinson a b w) T * beta_expr (PengRobinson a b w) T P -
        2 * beta_expr (PengRobinson a b w) T P -
        3 * beta_expr (PengRobinson a b w) T P ^ 2 ∧
    c0_expr (PengRobinson a b w) P T =
      beta_expr (PengRobinson a b w) T P ^ 3 + beta_expr (PengRobinson a b w) T P ^ 2 -
        q_expr (PengRobinson a b w) T * beta_expr (PengRobinson a b w) T P ^ 2 := by
  have h1 := PR_sigma_add a b w
  have h2 := PR_sigma_mul a b w
  unfold c2_expr c1_expr c0_expr
  rw [h1, h2]
  refine ⟨by ring, by ring, by ring⟩

lemma beta_prPropane_5e5 : beta_expr prPropane 300 500000 = 14386387 / 1274400000 := by
  simp [beta_expr, P_r, T_r, prPropane, PengRobinsonOfCC, PengRobinson, propane]
  norm_num

/-- At `(T, P) = (300, 5e5)` the Peng-Robinson propane cubic has three
distinct real roots, located by sign changes. -/
lemma prPropane_5e5_three_roots :
    ∃ z1 z2 z3, z1 < z2 ∧ z2 < z3 ∧
      cubicF prPropane 500000 300 z1 = 0 ∧ cubicF prPropane 500000 300 z2 = 0 ∧
      cubicF prPropane 500000 300 z3 = 0 := by
  obtain ⟨hq1, hq2⟩ := q_prPropane_300_bounds
  have hF : ∀ z, cubicF prPropane 500000 300 z =
      cubic3 (14386387 / 1274400000 - 1)
        (q_expr prPropane 300 * (14386387 / 1274400000) - 2 * (14386387 / 1274400000) -
          3 * (14386387 / 1274400000) ^ 2)
        ((14386387 / 1274400000) ^ 3 + (14386387 / 1274400000) ^ 2 -
          q_expr prPropane 300 * (14386387 / 1274400000) ^ 2) z := by
    intro z
    have h := PR_cubicF ((propane.T_c : ℝ)) ((propane.P_c : ℝ)) ((propane.w : ℝ)) 500000 300 z
    have hPR : PengRobinson ((propane.T_c : ℝ)) ((propane.P_c : ℝ)) ((propane.w : ℝ)) = prPropane := rfl
    rw [hPR, beta_prPropane_5e5] at h
    exact h
  obtain ⟨z1, ha1, hb1, hr1⟩ := cubic_root_of_sign_change
    (14386387 / 1274400000 - 1)
    (q_expr prPropane 300 * (14386387 / 1274400000) - 2 * (14386387 / 1274400000) -
      3 * (14386387 / 1274400000) ^ 2)
    ((14386387 / 1274400000) ^ 3 + (14386387 / 1274400000) ^ 2 -
      q_expr prPropane 300 * (14386387 / 1274400000) ^ 2)
    0.016 0.03 (by norm_num) (by unfold cubic3; nlinarith) (by unfold cubic3; nlinarith)
  obtain ⟨z2, ha2, hb2, hr2⟩ := cubic_root_of_sign_change_down
    (14386387 / 1274400000 - 1)
    (q_expr prPropane 300 * (14386387 / 1274400000) - 2 * (14386387 / 1274400000) -
      3 * (14386387 / 1274400000) ^ 2)
    ((14386387 / 1274400000) ^ 3 + (14386387 / 1274400000) ^ 2 -
      q_expr prPropane 300 * (14386387 / 1274400000) ^ 2)
    0.03 0.3 (by norm_num) (by unfold cubic3; nlinarith) (by unfold cubic3; nlinarith)
  obtain ⟨z3, ha3, hb3, hr3⟩ := cubic_root_of_sign_change
    (14386387 / 1274400000 - 1)
    (q_expr prPropane 300 * (14386387 / 1274400000) - 2 * (14386387 / 1274400000) -
      3 * (14386387 / 1274400000) ^ 2)
    ((14386387 / 1274400000) ^ 3 + (14386387 / 1274400000) ^ 2 -
      q_expr prPropane 300 * (14386387 / 1274400000) ^ 2)
    0.3 1 (by norm_num) (by unfold cubic3; nlinarith) (by unfold cubic3; nlinarith)
  refine ⟨z1, z2, z3, by linarith, by linarith, ?_, ?_, ?_⟩ <;> rw [hF] <;> assumption

/-- At `(T, P) = (300, 5e5)` the discriminant of the Peng-Robinson
propane cubic is positive, so `num_roots` returns 3. -/
lemma prPropane_num_roots_300 : num_roots prPropane 300 500000 = 3 := by
  obtain ⟨hq1, hq2⟩ := q_prPropane_300_bounds
  obtain ⟨hC2, hC1, hC0⟩ := PR_coeffs ((propane.T_c : ℝ)) ((propane.P_c : ℝ)) ((propane.w : ℝ)) 500000 300
  have hPR : PengRobinson ((propane.T_c : ℝ)) ((propane.P_c : ℝ)) ((propane.w : ℝ)) = prPropane := rfl
  rw [hPR, beta_prPropane_5e5] at hC2 hC1 hC0
  unfold num_roots
  rw [if_pos]
  rw [hC2, hC1, hC0]
  unfold disc
  have h1 : 0 ≤ q_expr prPropane 300 - 8.1388722212 := by linarith
  have h2 : 0 ≤ (8.1388722213 : ℝ) - q_expr prPropane 300 := by linarith
  nlinarith [mul_nonneg h1 h2, mul_nonneg (mul_nonneg h1 h1) h1,
    mul_nonneg (mul_nonneg h2 h2) h2, mul_nonneg (mul_nonneg h1 h1) h2,
    mul_nonneg (mul_nonneg h2 h2) h1, sq_nonneg (q_expr prPropane 300 - 8.1388722212),
    sq_nonneg ((8.1388722213 : ℝ) - q_expr prPropane 300)]

lemma beta_prPropane_100_5e5 : beta_expr prPropane 100 500000 = 14386387 / 424800000 := by
  simp [beta_expr, P_r, T_r, prPropane, PengRobinsonOfCC, PengRobinson, propane]
  norm_num

lemma q_prPropane_100_eq : q_expr prPropane 100 =
    0.45724 / (0.0778 * (10000 / 36983)) *
      (1 + 470958819 / 781250000 * (1 - Real.sqrt (10000 / 36983))) ^ 2 := by
  have harg : ((100 : ℝ) / ((369.83 : ℚ) : ℝ)) = 10000 / 36983 := by norm_num
  simp only [q_expr, T_r, prPropane, PengRobinsonOfCC, PengRobinson, propane, kappaPR]
  rw [harg]
  norm_num
  ring

lemma q_prPropane_100_bounds :
    (36.1339411732 : ℝ) ≤ q_expr prPropane 100 ∧
      q_expr prPropane 100 ≤ 36.1339411735 := by
  obtain ⟨hs1, hs2⟩ := @sqrtBounds ((10000 : ℝ) / 36983)
    (259997358439 / 500000000000) (259997358441 / 500000000000)
    (by norm_num) (by norm_num) (by norm_num) (by norm_num)
  exact q_bounds_of_sqrt (q_expr prPropane 100) (Real.sqrt (10000 / 36983))
    (470958819 / 781250000) (0.45724 / (0.0778 * (10000 / 36983)))
    (1 + 470958819 / 781250000 * (1 - 259997358441 / 500000000000))
    (1 + 470958819 / 781250000 * (1 - 259997358439 / 500000000000))
    36.1339411732 36.1339411735
    q_prPropane_100_eq (by nlinarith) (by nlinarith) (by norm_num) (by norm_num)
    (by norm_num) (by norm_num)

/-- At `(T, P) = (100, 5e5)` the Peng-Robinson propane cubic is strictly
monotone, hence has exactly one real root, which lies in
`(0.0359, 0.0360)`. -/
lemma prPropane_100_root_data :
    ∃ r, 0.0359 < r ∧ r < 0.0360 ∧ cubicF prPropane 500000 100 r = 0 ∧
      ∀ z, cubicF prPropane 500000 100 z = 0 → z = r := by
  obtain ⟨hq1, hq2⟩ := q_prPropane_100_bounds
  have hF : ∀ z, cubicF prPropane 500000 100 z =
      cubic3 (14386387 / 424800000 - 1)
        (q_expr prPropane 100 * (14386387 / 424800000) - 2 * (14386387 / 424800000) -
          3 * (14386387 / 424800000) ^ 2)
        ((14386387 / 424800000) ^ 3 + (14386387 / 424800000) ^ 2 -
          q_expr prPropane 100 * (14386387 / 424800000) ^ 2) z := by
    intro z
    have h := PR_cubicF ((propane.T_c : ℝ)) ((propane.P_c : ℝ)) ((propane.w : ℝ)) 500000 100 z
    have hPR : PengRobinson ((propane.T_c : ℝ)) ((propane.P_c : ℝ)) ((propane.w : ℝ)) = prPropane := rfl
    rw [hPR, beta_prPropane_100_5e5] at h
    exact h
  have hmono := cubic_strictMono (14386387 / 424800000 - 1)
    (q_expr prPropane 100 * (14386387 / 424800000) - 2 * (14386387 / 424800000) -
      3 * (14386387 / 424800000) ^ 2)
    ((14386387 / 424800000) ^ 3 + (14386387 / 424800000) ^ 2 -
      q_expr prPropane 100 * (14386387 / 424800000) ^ 2)
    (by nlinarith)
  obtain ⟨r, ha, hb, hr⟩ := cubic_root_of_sign_change
    (14386387 / 424800000 - 1)
    (q_expr prPropane 100 * (14386387 / 424800000) - 2 * (14386387 / 424800000) -
      3 * (14386387 / 424800000) ^ 2)
    ((14386387 / 424800000) ^ 3 + (14386387 / 424800000) ^ 2 -
      q_expr prPropane 100 * (14386387 / 424800000) ^ 2)
    0.0359 0.0360 (by norm_num) (by unfold cubic3; nlinarith) (by unfold cubic3; nlinarith)
  refine ⟨r, ha, hb, ?_, ?_⟩
  · show cubicF prPropane 500000 100 r = 0
    rw [hF]; exact hr
  · intro z hz
    have hz2 : cubicF prPropane 500000 100 z = 0 := hz
    rw [hF] at hz2
    exact hmono.injective (by rw [hz2, hr])

/-- Corollary form: exactly one real root at `(T, P) = (100, 5e5)`. -/
lemma prPropane_100_unique_root :
    ∃! z, cubicF prPropane 500000 100 z = 0 := by
  obtain ⟨r, h1, h2, h3, h4⟩ := prPropane_100_root_data
  exact ⟨r, h3, h4⟩

/-- At `(T, P) = (100, 5e5)` the discriminant of the Peng-Robinson
propane cubic is negative, so `num_roots` returns 1. -/
lemma prPropane_num_roots_100 : num_roots prPropane 100 500000 = 1 := by
  obtain ⟨hq1, hq2⟩ := q_prPropane_100_bounds
  obtain ⟨hC2, hC1, hC0⟩ := PR_coeffs ((propane.T_c : ℝ)) ((propane.P_c : ℝ)) ((propane.w : ℝ)) 500000 100
  have hPR : PengRobinson ((propane.T_c : ℝ)) ((propane.P_c : ℝ)) ((propane.w : ℝ)) = prPropane := rfl
  rw [hPR, beta_prPropane_100_5e5] at hC2 hC1 hC0
  unfold num_roots
  rw [if_neg]
  push_neg
  rw [hC2, hC1, hC0]
  unfold disc
  have h1 : 0 ≤ q_expr prPropane 100 - 36.1339411732 := by linarith
  have h2 : 0 ≤ (36.1339411735 : ℝ) - q_expr prPropane 100 := by linarith
  nlinarith [mul_nonneg h1 h2, mul_nonneg (mul_nonneg h1 h1) h1,
    mul_nonneg (mul_nonneg h2 h2) h2, mul_nonneg (mul_nonneg h1 h1) h2,
    mul_nonneg (mul_nonneg h2 h2) h1]

/-! ## Case data: Propane, second-virial kernel, T = 300 K, P = 8e5 Pa -/

lemma virial_Z_propane :
    |calc_Z_from_units svPropane 800000 300 - 0.8726051032825523| < 1 / 10000 := by
  have hTr : ((300 : ℝ) / ((369.83 : ℚ) : ℝ)) = 30000 / 36983 := by norm_num
  have h16 : (1.6 : ℝ) = ((8 : ℕ) : ℝ) / ((5 : ℕ) : ℝ) := by norm_num
  have h42 : (4.2 : ℝ) = ((21 : ℕ) : ℝ) / ((5 : ℕ) : ℝ) := by norm_num
  obtain ⟨hx1, hx2⟩ := rpow_div_nat_bounds ((30000 : ℝ) / 36983)
    (7154686149111 / 10000000000000) (7154686149115 / 10000000000000) 8 5
    (by norm_num) (by norm_num) (by norm_num) (by norm_num) (by norm_num) (by norm_num)
  obtain ⟨hy1, hy2⟩ := rpow_div_nat_bounds ((30000 : ℝ) / 36983)
    (4152410612359 / 10000000000000) (4152410612363 / 10000000000000) 21 5
    (by norm_num) (by norm_num) (by norm_num) (by norm_num) (by norm_num) (by norm_num)
  have hc8 : (((8 : ℕ) : ℝ) / ((5 : ℕ) : ℝ)) = ((8 : ℝ) / 5) := by norm_num
  have hc21 : (((21 : ℕ) : ℝ) / ((5 : ℕ) : ℝ)) = ((21 : ℝ) / 5) := by norm_num
  rw [hc8] at hx1 hx2
  rw [hc21] at hy1 hy2
  have hxpos : (0 : ℝ) < ((30000 : ℝ) / 36983) ^ ((8 : ℝ) / 5) :=
    lt_of_lt_of_le (by norm_num) hx1
  have hypos : (0 : ℝ) < ((30000 : ℝ) / 36983) ^ ((21 : ℝ) / 5) :=
    lt_of_lt_of_le (by norm_num) hy1
  have hdx1 : (0.422 : ℝ) / ((30000 : ℝ) / 36983) ^ ((8 : ℝ) / 5) ≤
      0.422 / (7154686149111 / 10000000000000) :=
    div_le_div_of_nonneg_left (by norm_num) (by norm_num) hx1
  have hdx2 : (0.422 : ℝ) / (7154686149115 / 10000000000000) ≤
      0.422 / ((30000 : ℝ) / 36983) ^ ((8 : ℝ) / 5) :=
    div_le_div_of_nonneg_left (by norm_num) hxpos hx2
  have hdy1 : (0.172 : ℝ) / ((30000 : ℝ) / 36983) ^ ((21 : ℝ) / 5) ≤
      0.172 / (4152410612359 / 10000000000000) :=
    div_le_div_of_nonneg_left (by norm_num) (by norm_num) hy1
  have hdy2 : (0.172 : ℝ) / (4152410612363 / 10000000000000) ≤
      0.172 / ((30000 : ℝ) / 36983) ^ ((21 : ℝ) / 5) :=
    div_le_div_of_nonneg_left (by norm_num) hypos hy2
  have h16b : (1.6 : ℝ) = (8 : ℝ) / 5 := by norm_num
  have h42b : (4.2 : ℝ) = (21 : ℝ) / 5 := by norm_num
  have hZ : calc_Z_from_units svPropane 800000 300 =
      1 + 8.314 * (36983 / 100) / 4248000 *
        ((0.083 - 0.422 / ((30000 : ℝ) / 36983) ^ ((8 : ℝ) / 5)) +
          19 / 125 * (0.139 - 0.172 / ((30000 : ℝ) / 36983) ^ ((21 : ℝ) / 5))) *
        800000 / (8.314 * 300) := by
    unfold calc_Z_from_units B_expr B0_expr B1_expr R svPropane
    simp only [propane]
    rw [hTr, h16b, h42b]
    norm_num
  rw [hZ, abs_lt]
  constructor <;>
    (ring_nf; ring_nf at hdx1 hdx2 hdy1 hdy2; linarith [hdx1, hdx2, hdy1, hdy2])

/-! ## Claim theorems: exact departure-function identities -/

/-- C1: for every supported cubic EOS family instance (hence every
compound) and every `(P, V, T)`, the residual-property expressions
satisfy `G_R_RT_expr(P,V,T) = H_R_RT_expr(P,V,T) - S_R_R_expr(P,V,T)`;
in the exact-arithmetic model the identity holds with no error at all,
so it holds within every numerical tolerance. -/
theorem C1_cubic_residual_consistency (e : CubicEos) (P V T : ℝ) :
    G_R_RT_expr e P V T = H_R_RT_expr e P V T - S_R_R_expr e P V T := by
  unfold G_R_RT_expr H_R_RT_expr S_R_R_expr
  ring

/-- C10: the thermodynamic-consistency identity also holds for the
virial kernel, whose residual expressions take only `(P, T)`: for every
compound, `G_R_RT_expr(P,T) = H_R_RT_expr(P,T) - S_R_R_expr(P,T)`,
exactly in the model and hence within any numerical tolerance. -/
theorem C10_virial_residual_consistency (v : SecondVirial) (P T : ℝ) :
    SecondVirial.G_R_RT_expr v P T =
      SecondVirial.H_R_RT_expr v P T - SecondVirial.S_R_R_expr v P T := by
  unfold SecondVirial.G_R_RT_expr SecondVirial.H_R_RT_expr SecondVirial.S_R_R_expr
  ring

/-- Closed instance of the C1 identity at a concrete state point. -/
theorem C1_cubic_residual_consistency_witness :
    G_R_RT_expr prPropane 800000 0.002 300 =
      H_R_RT_expr prPropane 800000 0.002 300 - S_R_R_expr prPropane 800000 0.002 300 :=
  C1_cubic_residual_consistency prPropane 800000 0.002 300

/-- Closed instance of the C10 identity at a concrete state point. -/
theorem C10_virial_residual_consistency_witness :
    SecondVirial.G_R_RT_expr svPropane 100000 300 =
      SecondVirial.H_R_RT_expr svPropane 100000 300 -
        SecondVirial.S_R_R_expr svPropane 100000 300 :=
  C10_virial_residual_consistency svPropane 100000 300

/-! ## Validation-layer case analysis -/

lemma checkField_cases (n : String) (ref : ℚ) (ov : Option ℚ) :
    (fieldOk ref ov = true ∧ ∃ v, checkField n ref ov = Except.ok v) ∨
    (fieldOk ref ov = false ∧
      checkField n ref ov = Except.error ("Percent difference too high for " ++ n)) := by
  cases ov with
  | none => exact Or.inl ⟨rfl, ref, rfl⟩
  | some v =>
    by_cases h : TOL < percent_difference ref v
    · refine Or.inr ⟨?_, ?_⟩
      · simp only [fieldOk, decide_eq_false_iff_not, not_le]
        exact h
      · simp [checkField, h]
    · refine Or.inl ⟨?_, v, ?_⟩
      · simp only [fieldOk, decide_eq_true_eq]
        exact le_of_not_lt h
      · simp [checkField, h]

lemma checkField_ok_of_le (n : String) (ref v : ℚ) (h : percent_difference ref v ≤ TOL) :
    checkField n ref (some v) = Except.ok v := by
  simp only [checkField]
  rw [if_neg (not_lt.2 h)]

lemma checkField_error_of_lt (n : String) (ref v : ℚ) (h : TOL < percent_difference ref v) :
    checkField n ref (some v) =
      Except.error ("Percent difference too high for " ++ n) := by
  simp only [checkField]
  rw [if_pos h]

lemma fieldOk_some_true (ref v : ℚ) (h : percent_difference ref v ≤ TOL) :
    fieldOk ref (some v) = true := by
  simp only [fieldOk, decide_eq_true_eq]
  exact h

lemma pd_methane_T_c : percent_difference (190.564 : ℚ) 191.4 ≤ TOL := by
  unfold percent_difference TOL
  rw [show |(190.564 - 191.4 : ℚ)| = 209 / 250 by norm_num]
  norm_num

lemma pd_methane_P_c : percent_difference (4599000 : ℚ) 4551116.856 ≤ TOL := by
  unfold percent_difference TOL
  rw [show |(4599000 - 4551116.856 : ℚ)| = 5985393 / 125 by norm_num]
  norm_num

lemma pd_methane_V_c : percent_difference (0.0000986 : ℚ) 0.0001 ≤ TOL := by
  unfold percent_difference TOL
  rw [show |(0.0000986 - 0.0001 : ℚ)| = 7 / 5000000 by norm_num]
  norm_num

lemma pd_methane_Z_c : percent_difference (0.286 : ℚ) 0.286 ≤ TOL := by
  unfold percent_difference TOL
  norm_num

lemma pd_methane_w : percent_difference (0.0115 : ℚ) 0.0115 ≤ TOL := by
  unfold percent_difference TOL
  norm_num

lemma pd_methane_MW : percent_difference (16.0425 : ℚ) 16.042 ≤ TOL := by
  unfold percent_difference TOL
  rw [show |(16.0425 - 16.042 : ℚ)| = 1 / 2000 by norm_num]
  norm_num

lemma pd_methane_badTc : TOL < percent_difference (190.564 : ℚ) ((273 : ℚ) - 191.4) := by
  unfold percent_difference TOL
  rw [show |(190.564 - ((273 : ℚ) - 191.4) : ℚ)| = 27241 / 250 by norm_num]
  norm_num

/-! ## Root-set finiteness of the monic cubic -/

lemma cubic3_eval (c2 c1 c0 z : ℝ) :
    cubic3 c2 c1 c0 z =
      (Polynomial.X ^ 3 + Polynomial.C c2 * Polynomial.X ^ 2 +
        Polynomial.C c1 * Polynomial.X + Polynomial.C c0).eval z := by
  simp only [cubic3, Polynomial.eval_add, Polynomial.eval_mul, Polynomial.eval_pow,
    Polynomial.eval_C, Polynomial.eval_X]

lemma cubicPoly_ne_zero (c2 c1 c0 : ℝ) :
    (Polynomial.X ^ 3 + Polynomial.C c2 * Polynomial.X ^ 2 +
      Polynomial.C c1 * Polynomial.X + Polynomial.C c0 : Polynomial ℝ) ≠ 0 := by
  have hm : (Polynomial.X ^ 3 + (Polynomial.C c2 * Polynomial.X ^ 2 +
      Polynomial.C c1 * Polynomial.X + Polynomial.C c0) : Polynomial ℝ).Monic :=
    Polynomial.monic_X_pow_add Polynomial.degree_quadratic_lt
  have heq : (Polynomial.X ^ 3 + Polynomial.C c2 * Polynomial.X ^ 2 +
      Polynomial.C c1 * Polynomial.X + Polynomial.C c0 : Polynomial ℝ) =
      Polynomial.X ^ 3 + (Polynomial.C c2 * Polynomial.X ^ 2 +
        Polynomial.C c1 * Polynomial.X + Polynomial.C c0) := by ring
  rw [heq]
  exact hm.ne_zero

/-- A monic cubic with some positive real root has a greatest positive
real root (the root set is finite and nonempty). -/
lemma exists_max_posRoot (c2 c1 c0 z0 : ℝ) (hz0 : cubic3 c2 c1 c0 z0 = 0)
    (h0 : 0 < z0) :
    ∃ Z, cubic3 c2 c1 c0 Z = 0 ∧ 0 < Z ∧
      ∀ z, cubic3 c2 c1 c0 z = 0 → 0 < z → z ≤ Z := by
  classical
  have hpne := cubicPoly_ne_zero c2 c1 c0
  set S : Finset ℝ :=
    (Polynomial.X ^ 3 + Polynomial.C c2 * Polynomial.X ^ 2 +
      Polynomial.C c1 * Polynomial.X + Polynomial.C c0 : Polynomial ℝ).roots.toFinset.filter
      (fun z => 0 < z) with hS
  have hmem : ∀ z : ℝ, z ∈ S ↔ cubic3 c2 c1 c0 z = 0 ∧ 0 < z := by
    intro z
    rw [hS]
    simp only [Finset.mem_filter, Multiset.mem_toFinset]
    rw [Polynomial.mem_roots hpne, Polynomial.IsRoot, ← cubic3_eval]
  have hne : S.Nonempty := ⟨z0, (hmem z0).2 ⟨hz0, h0⟩⟩
  refine ⟨S.max' hne, ((hmem _).1 (S.max'_mem hne)).1, ((hmem _).1 (S.max'_mem hne)).2, ?_⟩
  intro z hz hzpos
  exact S.le_max' z ((hmem z).2 ⟨hz, hzpos⟩)

/-- A monic cubic with some positive real root has a least positive real
root. -/
lemma exists_min_posRoot (c2 c1 c0 z0 : ℝ) (hz0 : cubic3 c2 c1 c0 z0 = 0)
    (h0 : 0 < z0) :
    ∃ Z, cubic3 c2 c1 c0 Z = 0 ∧ 0 < Z ∧
      ∀ z, cubic3 c2 c1 c0 z = 0 → 0 < z → Z ≤ z := by
  classical
  have hpne := cubicPoly_ne_zero c2 c1 c0
  set S : Finset ℝ :=
    (Polynomial.X ^ 3 + Polynomial.C c2 * Polynomial.X ^ 2 +
      Polynomial.C c1 * Polynomial.X + Polynomial.C c0 : Polynomial ℝ).roots.toFinset.filter
      (fun z => 0 < z) with hS
  have hmem : ∀ z : ℝ, z ∈ S ↔ cubic3 c2 c1 c0 z = 0 ∧ 0 < z := by
    intro z
    rw [hS]
    simp only [Finset.mem_filter, Multiset.mem_toFinset]
    rw [Polynomial.mem_roots hpne, Polynomial.IsRoot, ← cubic3_eval]
  have hne : S.Nonempty := ⟨z0, (hmem z0).2 ⟨hz0, h0⟩⟩
  refine ⟨S.min' hne, ((hmem _).1 (S.min'_mem hne)).1, ((hmem _).1 (S.min'_mem hne)).2, ?_⟩
  intro z hz hzpos
  exact S.min'_le z ((hmem z).2 ⟨hz, hzpos⟩)

/-! ## Remaining claim theorems -/

/-- C2: `num_roots(T, P)` returns either 1 or 3 for every EOS instance and
every `(T, P)`, never 0 or 2; for Peng-Robinson propane it returns 3 at
`(300., 5e5)` and 1 at `(100., 5e5)`, and these classifications are
correct: the cubic has three distinct real roots at the former point and
exactly one real root at the latter. -/
theorem C2_num_roots_classification :
    (∀ (e : CubicEos) (T P : ℝ), num_roots e T P = 1 ∨ num_roots e T P = 3) ∧
    num_roots prPropane 300 500000 = 3 ∧
    num_roots prPropane 100 500000 = 1 ∧
    (∃ z1 z2 z3, z1 < z2 ∧ z2 < z3 ∧ cubicF prPropane 500000 300 z1 = 0 ∧
      cubicF prPropane 500000 300 z2 = 0 ∧ cubicF prPropane 500000 300 z3 = 0) ∧
    (∃! z, cubicF prPropane 500000 100 z = 0) := by
  refine ⟨?_, prPropane_num_roots_300, prPropane_num_roots_100,
    prPropane_5e5_three_roots, prPropane_100_unique_root⟩
  intro e T P
  unfold num_roots
  by_cases h : 0 < disc (c2_expr e P T) (c1_expr e P T) (c0_expr e P T)
  · right
    rw [if_pos h]
  · left
    rw [if_neg h]

/-- C3: the doctest end-to-end values, within `1e-4` of the published
doctest outputs (which are non-converged solver iterates, hence the
documented values agree with the exact roots only approximately): the
vapor-phase `Z` of Peng-Robinson propane at `(P, T) = (8e5, 300)` is
`0.8568...`, of Redlich-Kwong propane `0.8712...`, and the virial
`calc_Z_from_units` gives `0.8726...`; the cubic selections are also
unique. -/
theorem C3_doctest_Z_values :
    (∃ Z, iterate_to_solve_Z prPropane 800000 300 Phase.vapor Z ∧
      |Z - 0.8568255826283575| < 1 / 10000 ∧
      ∀ Y, iterate_to_solve_Z prPropane 800000 300 Phase.vapor Y → Y = Z) ∧
    (∃ Z, iterate_to_solve_Z rkPropane 800000 300 Phase.vapor Z ∧
      |Z - 0.8712488647564147| < 1 / 10000 ∧
      ∀ Y, iterate_to_solve_Z rkPropane 800000 300 Phase.vapor Y → Y = Z) ∧
    |calc_Z_from_units svPropane 800000 300 - 0.8726051032825523| < 1 / 10000 := by
  refine ⟨?_, ?_, virial_Z_propane⟩
  · obtain ⟨r, hlo, hhi, hroot, hmax⟩ := prPropane_vapor_root
    have hsel : iterate_to_solve_Z prPropane 800000 300 Phase.vapor r :=
      ⟨hroot, by linarith, fun z hz _ => hmax z hz⟩
    refine ⟨r, hsel, ?_, ?_⟩
    · rw [abs_lt]
      constructor <;> linarith
    · intro Y hY
      obtain ⟨hYroot, hYpos, hYmax⟩ := hY
      exact le_antisymm (hmax Y hYroot) (hYmax r hroot (by linarith))
  · obtain ⟨r, hlo, hhi, hroot, hmax⟩ := rkPropane_vapor_root
    have hsel : iterate_to_solve_Z rkPropane 800000 300 Phase.vapor r :=
      ⟨hroot, by linarith, fun z hz _ => hmax z hz⟩
    refine ⟨r, hsel, ?_, ?_⟩
    · rw [abs_lt]
      constructor <;> linarith
    · intro Y hY
      obtain ⟨hYroot, hYpos, hYmax⟩ := hY
      exact le_antisymm (hmax Y hYroot) (hYmax r hroot (by linarith))

/-- C4: for every reference record and override set, construction
succeeds precisely when every supplied override is within the
percent-difference tolerance of its reference value, and a failed
construction reports an error naming a specific offending field whose
override is indeed out of tolerance.  Failure happens in
`mkCriticalConstants` itself, before any EOS object exists. -/
theorem C4_override_validation (ref : CriticalConstants) (ov : CriticalOverrides) :
    ((∃ cc, mkCriticalConstants ref ov = Except.ok cc) ↔
      (fieldOk ref.T_c ov.T_c = true ∧ fieldOk ref.P_c ov.P_c = true ∧
        fieldOk ref.V_c ov.V_c = true ∧ fieldOk ref.Z_c ov.Z_c = true ∧
        fieldOk ref.w ov.w = true ∧ fieldOk ref.MW ov.MW = true)) ∧
    (∀ s, mkCriticalConstants ref ov = Except.error s →
      (s = "Percent difference too high for T_c" ∧ fieldOk ref.T_c ov.T_c = false) ∨
      (s = "Percent difference too high for P_c" ∧ fieldOk ref.P_c ov.P_c = false) ∨
      (s = "Percent difference too high for V_c" ∧ fieldOk ref.V_c ov.V_c = false) ∨
      (s = "Percent difference too high for Z_c" ∧ fieldOk ref.Z_c ov.Z_c = false) ∨
      (s = "Percent difference too high for w" ∧ fieldOk ref.w ov.w = false) ∨
      (s = "Percent difference too high for MW" ∧ fieldOk ref.MW ov.MW = false)) := by
  rcases checkField_cases "T_c" ref.T_c ov.T_c with ⟨hb1, v1, hv1⟩ | ⟨hb1, hv1⟩
  · rcases checkField_cases "P_c" ref.P_c ov.P_c with ⟨hb2, v2, hv2⟩ | ⟨hb2, hv2⟩
    · rcases checkField_cases "V_c" ref.V_c ov.V_c with ⟨hb3, v3, hv3⟩ | ⟨hb3, hv3⟩
      · rcases checkField_cases "Z_c" ref.Z_c ov.Z_c with ⟨hb4, v4, hv4⟩ | ⟨hb4, hv4⟩
        · rcases checkField_cases "w" ref.w ov.w with ⟨hb5, v5, hv5⟩ | ⟨hb5, hv5⟩
          · rcases checkField_cases "MW" ref.MW ov.MW with ⟨hb6, v6, hv6⟩ | ⟨hb6, hv6⟩
            · constructor
              · simp [mkCriticalConstants, hv1, hv2, hv3, hv4, hv5, hv6,
                  hb1, hb2, hb3, hb4, hb5, hb6]
              · intro s hs
                simp [mkCriticalConstants, hv1, hv2, hv3, hv4, hv5, hv6] at hs
            · constructor
              · simp [mkCriticalConstants, hv1, hv2, hv3, hv4, hv5, hv6, hb6]
              · intro s hs
                simp only [mkCriticalConstants, hv1, hv2, hv3, hv4, hv5, hv6,
                  Except.error.injEq] at hs
                exact Or.inr (Or.inr (Or.inr (Or.inr (Or.inr
                  ⟨by rw [← hs]; rfl, hb6⟩))))
          · constructor
            · simp [mkCriticalConstants, hv1, hv2, hv3, hv4, hv5, hb5]
            · intro s hs
              simp only [mkCriticalConstants, hv1, hv2, hv3, hv4, hv5,
                Except.error.injEq] at hs
              exact Or.inr (Or.inr (Or.inr (Or.inr (Or.inl
                ⟨by rw [← hs]; rfl, hb5⟩))))
        · constructor
          · simp [mkCriticalConstants, hv1, hv2, hv3, hv4, hb4]
          · intro s hs
            simp only [mkCriticalConstants, hv1, hv2, hv3, hv4,
              Except.error.injEq] at hs
            exact Or.inr (Or.inr (Or.inr (Or.inl ⟨by rw [← hs]; rfl, hb4⟩)))
      · constructor
        · simp [mkCriticalConstants, hv1, hv2, hv3, hb3]
        · intro s hs
          simp only [mkCriticalConstants, hv1, hv2, hv3, Except.error.injEq] at hs
          exact Or.inr (Or.inr (Or.inl ⟨by rw [← hs]; rfl, hb3⟩))
    · constructor
      · simp [mkCriticalConstants, hv1, hv2, hb2]
      · intro s hs
        simp only [mkCriticalConstants, hv1, hv2, Except.error.injEq] at hs
        exact Or.inr (Or.inl ⟨by rw [← hs]; rfl, hb2⟩)
  · constructor
    · simp [mkCriticalConstants, hv1, hb1]
    · intro s hs
      simp only [mkCriticalConstants, hv1, Except.error.injEq] at hs
      exact Or.inl ⟨by rw [← hs]; rfl, hb1⟩

/-- Closed instance of C4 on the Methane doctests: the out-of-tolerance
`T_c` override fails naming `T_c`, and the all-within-tolerance override
set succeeds. -/
theorem C4_override_validation_witness :
    mkCriticalConstants methaneRef methaneBadTcOv = Except.error
      "Percent difference too high for T_c" ∧
    (∃ cc, mkCriticalConstants methaneRef methaneCustomOv = Except.ok cc) := by
  have hgood := (C4_override_validation methaneRef methaneCustomOv).1
  constructor
  · have hbad : checkField "T_c" methaneRef.T_c methaneBadTcOv.T_c =
        Except.error ("Percent difference too high for " ++ "T_c") :=
      checkField_error_of_lt "T_c" (190.564 : ℚ) ((273 : ℚ) - 191.4) pd_methane_badTc
    simp only [mkCriticalConstants, hbad]
    rfl
  · refine hgood.2 ⟨?_, ?_, ?_, ?_, ?_, ?_⟩
    · exact fieldOk_some_true (190.564 : ℚ) 191.4 pd_methane_T_c
    · exact fieldOk_some_true (4599000 : ℚ) 4551116.856 pd_methane_P_c
    · exact fieldOk_some_true (0.0000986 : ℚ) 0.0001 pd_methane_V_c
    · exact fieldOk_some_true (0.286 : ℚ) 0.286 pd_methane_Z_c
    · exact fieldOk_some_true (0.0115 : ℚ) 0.0115 pd_methane_w
    · exact fieldOk_some_true (16.0425 : ℚ) 16.042 pd_methane_MW

/-- C5: the custom within-tolerance Methane constants are accepted and
stored as given (not replaced by the reference values), and the two
constructed Peng-Robinson objects give different compressibility factors
at `(T, P) = (300., 8e5)`, matching the doctest values `0.9828233` and
`0.9823877` to within `1e-4`; every custom-object selection is strictly
below every reference-object selection. -/
theorem C5_custom_constants_used_downstream :
    mkCriticalConstants methaneRef methaneCustomOv = Except.ok methaneCustom ∧
    methaneCustom.T_c ≠ methaneRef.T_c ∧
    (∃ Z1, iterate_to_solve_Z prMethane 800000 300 Phase.vapor Z1 ∧
      |Z1 - 0.9828233| < 1 / 10000) ∧
    (∃ Z2, iterate_to_solve_Z prMethaneCustom 800000 300 Phase.vapor Z2 ∧
      |Z2 - 0.9823877| < 1 / 10000) ∧
    (∀ Z1 Z2, iterate_to_solve_Z prMethane 800000 300 Phase.vapor Z1 →
      iterate_to_solve_Z prMethaneCustom 800000 300 Phase.vapor Z2 → Z2 < Z1) := by
  obtain ⟨r1, hlo1, hhi1, hroot1, hmax1⟩ := prMethane_vapor_root
  obtain ⟨r2, hlo2, hhi2, hroot2, hmax2⟩ := prMethaneCustom_vapor_root
  have hT : checkField "T_c" methaneRef.T_c methaneCustomOv.T_c = Except.ok (191.4 : ℚ) :=
    checkField_ok_of_le "T_c" (190.564 : ℚ) 191.4 pd_methane_T_c
  have hP : checkField "P_c" methaneRef.P_c methaneCustomOv.P_c = Except.ok (4551116.856 : ℚ) :=
    checkField_ok_of_le "P_c" (4599000 : ℚ) 4551116.856 pd_methane_P_c
  have hV : checkField "V_c" methaneRef.V_c methaneCustomOv.V_c = Except.ok (0.0001 : ℚ) :=
    checkField_ok_of_le "V_c" (0.0000986 : ℚ) 0.0001 pd_methane_V_c
  have hZ : checkField "Z_c" methaneRef.Z_c methaneCustomOv.Z_c = Except.ok (0.286 : ℚ) :=
    checkField_ok_of_le "Z_c" (0.286 : ℚ) 0.286 pd_methane_Z_c
  have hw : checkField "w" methaneRef.w methaneCustomOv.w = Except.ok (0.0115 : ℚ) :=
    checkField_ok_of_le "w" (0.0115 : ℚ) 0.0115 pd_methane_w
  have hM : checkField "MW" methaneRef.MW methaneCustomOv.MW = Except.ok (16.042 : ℚ) :=
    checkField_ok_of_le "MW" (16.0425 : ℚ) 16.042 pd_methane_MW
  refine ⟨?_, ?_, ?_, ?_, ?_⟩
  · simp only [mkCriticalConstants, hT, hP, hV, hZ, hw, hM]
    rfl
  · show (191.4 : ℚ) ≠ 190.564
    norm_num
  · refine ⟨r1, ⟨hroot1, by linarith, fun z hz _ => hmax1 z hz⟩, ?_⟩
    rw [abs_lt]
    constructor <;> linarith
  · refine ⟨r2, ⟨hroot2, by linarith, fun z hz _ => hmax2 z hz⟩, ?_⟩
    rw [abs_lt]
    constructor <;> linarith
  · intro Z1 Z2 h1 h2
    obtain ⟨h1root, h1pos, h1max⟩ := h1
    obtain ⟨h2root, h2pos, h2max⟩ := h2
    have e1 : Z1 = r1 :=
      le_antisymm (hmax1 Z1 h1root) (h1max r1 hroot1 (by linarith))
    have e2 : Z2 = r2 :=
      le_antisymm (hmax2 Z2 h2root) (h2max r2 hroot2 (by linarith))
    rw [e1, e2]
    linarith

/-- C6: root selection honours the requested phase.  In general, whenever
the cubic has exactly one real root, the vapor and the liquid request
return the same value (graceful degradation, not an error); and in the
three-root regime (propane at `(P, T) = (8e5, 300)`) a vapor selection
and a liquid selection exist, with the liquid root strictly below the
vapor root, the vapor selection being the largest root and the liquid
selection the smallest positive root by definition of the selection
relation. -/
theorem C6_phase_selection :
    (∀ (e : CubicEos) (P T : ℝ), (∃! z, cubicF e P T z = 0) →
      ∀ Zv Zl, iterate_to_solve_Z e P T Phase.vapor Zv →
        iterate_to_solve_Z e P T Phase.liquid Zl → Zv = Zl) ∧
    (∃ Zv Zl, iterate_to_solve_Z prPropane 800000 300 Phase.vapor Zv ∧
      iterate_to_solve_Z prPropane 800000 300 Phase.liquid Zl ∧ Zl < Zv) := by
  constructor
  · intro e P T h Zv Zl hv hl
    obtain ⟨z, _, hu⟩ := h
    rw [hu Zv hv.1, hu Zl hl.1]
  · obtain ⟨rv, hlov, hhiv, hrootv, hmaxv⟩ := prPropane_vapor_root
    obtain ⟨rl, hlol, hhil, hrootl, hminl⟩ := prPropane_liquid_root
    exact ⟨rv, rl, ⟨hrootv, by linarith, fun z hz _ => hmaxv z hz⟩,
      ⟨hrootl, by linarith, fun z hz hzpos => hminl z hz hzpos⟩, by linarith⟩

/-- C7: a phase query can be answered if and only if the cubic has a
positive real root: the solver's failure condition is exactly the
absence of a positive real root, detected at the query itself. -/
theorem C7_fail_iff_no_positive_root (e : CubicEos) (P T : ℝ) (phase : Phase) :
    (∃ Z, iterate_to_solve_Z e P T phase Z) ↔
      (∃ z, cubicF e P T z = 0 ∧ 0 < z) := by
  constructor
  · rintro ⟨Z, h1, h2, _⟩
    exact ⟨Z, h1, h2⟩
  · rintro ⟨z0, hz0, h0⟩
    cases phase with
    | vapor =>
      obtain ⟨Z, hr, hp, hmax⟩ :=
        exists_max_posRoot (c2_expr e P T) (c1_expr e P T) (c0_expr e P T) z0 hz0 h0
      exact ⟨Z, hr, hp, hmax⟩
    | liquid =>
      obtain ⟨Z, hr, hp, hmin⟩ :=
        exists_min_posRoot (c2_expr e P T) (c1_expr e P T) (c0_expr e P T) z0 hz0 h0
      exact ⟨Z, hr, hp, hmin⟩

/-- Closed instance of C6's graceful degradation: at the single-real-root
point `(T, P) = (100, 5e5)` the vapor and the liquid selections both
exist and coincide. -/
theorem C6_phase_selection_witness :
    ∃ Zv Zl, iterate_to_solve_Z prPropane 500000 100 Phase.vapor Zv ∧
      iterate_to_solve_Z prPropane 500000 100 Phase.liquid Zl ∧ Zv = Zl := by
  obtain ⟨r, h1, h2, h3, h4⟩ := prPropane_100_root_data
  have hv : iterate_to_solve_Z prPropane 500000 100 Phase.vapor r :=
    ⟨h3, by linarith, fun z hz _ => le_of_eq (h4 z hz)⟩
  have hl : iterate_to_solve_Z prPropane 500000 100 Phase.liquid r :=
    ⟨h3, by linarith, fun z hz _ => (h4 z hz).ge⟩
  exact ⟨r, r, hv, hl,
    C6_phase_selection.1 prPropane 500000 100 ⟨r, h3, h4⟩ r r hv hl⟩

/-- Closed instance of C7 at the propane reference point. -/
theorem C7_fail_iff_no_positive_root_witness :
    (∃ Z, iterate_to_solve_Z prPropane 800000 300 Phase.vapor Z) ↔
      (∃ z, cubicF prPropane 800000 300 z = 0 ∧ 0 < z) :=
  C7_fail_iff_no_positive_root prPropane 800000 300 Phase.vapor

/-- C8: the cross second-virial coefficient is symmetric in the two
compounds for every interaction parameter `k_ij` and temperature, and on
the diagonal (with `k = 0`) it reduces to the pure-compound correlation
whenever the compound's critical constants are self-consistent
(`P_c = Z_c R T_c / V_c`, the identity defining `Z_c`). -/
theorem C8_B_ij_symmetric (ci cj : MixComp) (k T : ℝ) :
    B_ij ci cj k T = B_ij cj ci k T ∧
    (0 ≤ ci.T_c → 0 ≤ ci.V_c → ci.P_c = ci.Z_c * R * ci.T_c / ci.V_c →
      B_ij ci ci 0 T = B_expr ci.pure T) := by
  constructor
  · have h1 : Tc_ij ci cj k = Tc_ij cj ci k := by
      unfold Tc_ij
      rw [mul_comm ci.T_c cj.T_c]
    have h2 : Zc_ij ci cj = Zc_ij cj ci := by
      unfold Zc_ij
      rw [add_comm ci.Z_c cj.Z_c]
    have h3 : w_ij ci cj = w_ij cj ci := by
      unfold w_ij
      rw [add_comm ci.w cj.w]
    have h4 : Vc_ij ci cj = Vc_ij cj ci := by
      unfold Vc_ij
      rw [add_comm (ci.V_c ^ ((1 : ℝ) / 3)) (cj.V_c ^ ((1 : ℝ) / 3))]
    unfold B_ij Pc_ij
    rw [h1, h2, h3, h4]
  · intro hT hV hP
    have hTc : Tc_ij ci ci 0 = ci.T_c := by
      unfold Tc_ij
      rw [Real.sqrt_mul_self hT]
      ring
    have hVc : Vc_ij ci ci = ci.V_c := by
      unfold Vc_ij
      have h2 : (ci.V_c ^ ((1 : ℝ) / 3) + ci.V_c ^ ((1 : ℝ) / 3)) / 2 =
          ci.V_c ^ ((1 : ℝ) / 3) := by ring
      rw [h2, ← Real.rpow_natCast (ci.V_c ^ ((1 : ℝ) / 3)) 3, ← Real.rpow_mul hV,
        show ((1 : ℝ) / 3) * ((3 : ℕ) : ℝ) = 1 by norm_num, Real.rpow_one]
    have hZc : Zc_ij ci ci = ci.Z_c := by
      unfold Zc_ij
      ring
    have hw : w_ij ci ci = ci.w := by
      unfold w_ij
      ring
    unfold B_ij Pc_ij MixComp.pure B_expr
    simp only
    rw [hTc, hVc, hZc, hw, hP]

/-- Closed instance of C8: methane/propane cross coefficient symmetry and
the methane diagonal reduction. -/
theorem C8_B_ij_symmetric_witness :
    B_ij mixMethane mixPropane 0.1 300 = B_ij mixPropane mixMethane 0.1 300 ∧
    B_ij mixMethane mixMethane 0 300 = B_expr mixMethane.pure 300 := by
  refine ⟨(C8_B_ij_symmetric mixMethane mixPropane 0.1 300).1,
    (C8_B_ij_symmetric mixMethane mixMethane 0 300).2 ?_ ?_ ?_⟩
  · norm_num [mixMethane]
  · norm_num [mixMethane]
  · show (4551116.856 : ℝ) = 0.286 * R * 191.4 / 0.0001
    unfold R
    norm_num

/-- C9: root selection is deterministic: for a fixed EOS object and fixed
`(P, T, phase)`, the set of values `iterate_to_solve_Z` may return is a
subsingleton — the model is a pure relation of its inputs with no mutable
state, and the selection rule pins down at most one value. -/
theorem C9_iterate_deterministic (e : CubicEos) (P T : ℝ) (phase : Phase) :
    Set.Subsingleton {Z | iterate_to_solve_Z e P T phase Z} := by
  intro Z1 h1 Z2 h2
  simp only [Set.mem_setOf_eq] at h1 h2
  cases phase with
  | vapor =>
    obtain ⟨hr1, hp1, hs1⟩ := h1
    obtain ⟨hr2, hp2, hs2⟩ := h2
    exact le_antisymm (hs2 Z1 hr1 hp1) (hs1 Z2 hr2 hp2)
  | liquid =>
    obtain ⟨hr1, hp1, hs1⟩ := h1
    obtain ⟨hr2, hp2, hs2⟩ := h2
    exact le_antisymm (hs1 Z2 hr2 hp2) (hs2 Z1 hr1 hp1)

/-- Closed instance of C9 at the propane reference point. -/
theorem C9_iterate_deterministic_witness :
    Set.Subsingleton {Z | iterate_to_solve_Z prPropane 800000 300 Phase.vapor Z} :=
  C9_iterate_deterministic prPropane 800000 300 Phase.vapor

end RealGas
